import Mathlib

/-!
The scheduler core of `include/kernel/thread.h`.

A shallow embedding of the inline functions of `include/kernel/thread.h`
(ready-queue bitmaps, highest-priority selection, time accounting and the
budget check) together with the properties its specification states about
them.

Machine words are natural numbers reduced modulo `2 ^ wordBits`; tick counts
(`ticks_t`, `time_t`) are natural numbers reduced modulo `2 ^ 64`.
-/

namespace Thread

/-! ## Build configuration -/

/-- Compile-time constants the header reads. `L2_BITMAP_SIZE` and `MIN_BUDGET`
are defined in headers outside this file, so they are parameters here. -/
structure Config where
  wordRadix : Nat
  CONFIG_NUM_DOMAINS : Nat
  CONFIG_NUM_PRIORITIES : Nat
  L2_BITMAP_SIZE : Nat
  MIN_BUDGET : Nat
  CONFIG_DEBUG_BUILD : Bool
  CONFIG_PRINTING : Bool
  CONFIG_VTX : Bool

/-- Number of bits of a machine word: `wordBits = 1 << wordRadix`. -/
def wordBits (cfg : Config) : Nat := 2 ^ cfg.wordRadix

/-- Reduction to a `word_t`. -/
def toWord (cfg : Config) (x : Nat) : Nat := x % 2 ^ wordBits cfg

/-- Subtraction on `word_t` (wraps around). -/
def wordSub (cfg : Config) (a b : Nat) : Nat :=
  (toWord cfg a + (2 ^ wordBits cfg - toWord cfg b)) % 2 ^ wordBits cfg

/-- Reduction to a 64-bit tick count (`ticks_t`, `time_t`). -/
def toTicks (x : Nat) : Nat := x % 2 ^ 64

/-- Addition on `ticks_t` (wraps around). -/
def ticksAdd (a b : Nat) : Nat := (a + b) % 2 ^ 64

/-- Subtraction on `ticks_t` (wraps around). -/
def ticksSub (a b : Nat) : Nat := (toTicks a + (2 ^ 64 - toTicks b)) % 2 ^ 64

/-! ## Assertions

`assert` is a debug-build check. A run is recorded as the value the code
computes with assertions compiled out plus a flag telling whether every
assertion reached on the way held; the value is only meaningful to callers
when the flag is `true` (a failed assertion is a contract violation). -/

/-- Outcome of running a piece of kernel code. -/
structure Checked (α : Type) where
  val : α
  ok : Bool

/-- A run that reaches no assertion. -/
def Checked.ret {α : Type} (a : α) : Checked α := ⟨a, true⟩

/-- Sequencing: the assertions of both parts must hold. -/
def Checked.andThen {α β : Type} (m : Checked α) (f : α → Checked β) : Checked β :=
  ⟨(f m.val).val, m.ok && (f m.val).ok⟩

instance : Monad Checked where
  pure := Checked.ret
  bind := Checked.andThen

/-- The `assert(c)` statement. -/
def assert (c : Bool) : Checked Unit := ⟨(), c⟩

/-! ## Data model -/

/-- One refill: an amount of time and the time from which it may be used. -/
structure refill_t where
  rAmount : Nat
  rTime : Nat
  deriving DecidableEq, Repr

/-- Modelled from the spec: the scheduling context (`sched_context_t` is
declared in `object/structures.h`, outside this file). It holds a period
(0 for round-robin), a budget, the cumulative consumed time, the capacity of
its refill buffer and the refills currently in the circular buffer, listed
from the head (`REFILL_HEAD`) to the tail (`REFILL_TAIL`). -/
structure sched_context_t where
  scPeriod : Nat
  scBudget : Nat
  scConsumed : Nat
  scRefillMax : Nat
  refills : List refill_t
  deriving DecidableEq, Repr

/-- Thread states (`_thread_state_t`); `ThreadState_RunningVM` exists only in
builds with `CONFIG_VTX`. -/
inductive thread_state_type where
  | ThreadState_Inactive
  | ThreadState_Running
  | ThreadState_Restart
  | ThreadState_BlockedOnReceive
  | ThreadState_BlockedOnSend
  | ThreadState_BlockedOnReply
  | ThreadState_BlockedOnNotification
  | ThreadState_RunningVM
  | ThreadState_IdleThreadState
  deriving DecidableEq, Repr

/-- The part of a thread control block the header reads. -/
structure tcb_t where
  tcbState : thread_state_type
  deriving DecidableEq, Repr

/-- Node state of one core (`NODE_STATE(..)`), together with the global
`ksDomainTime`. `ksReadyQueues i` lists the threads of the queue with index
`i`. -/
structure KState where
  ksReadyQueuesL1Bitmap : Nat → Nat
  ksReadyQueuesL2Bitmap : Nat → Nat → Nat
  ksReadyQueues : Nat → List Nat
  ksCurThread : tcb_t
  ksCurSC : sched_context_t
  ksCurTime : Nat
  ksConsumed : Nat
  ksReprogram : Bool
  ksDomainTime : Nat
  currentCpuIndex : Nat

/-! ## Ready queues and priority bitmaps -/

/-- The function `ready_queues_index(dom, prio)`. -/
def ready_queues_index (cfg : Config) (dom prio : Nat) : Checked Nat :=
  if cfg.CONFIG_NUM_DOMAINS > 1 then
    pure (toWord cfg (dom * cfg.CONFIG_NUM_PRIORITIES + prio))
  else do
    assert (dom == 0)
    pure prio

/-- The function `prio_to_l1index(prio)`. -/
def prio_to_l1index (cfg : Config) (prio : Nat) : Nat := prio >>> cfg.wordRadix

/-- The function `l1index_to_prio(l1index)`. -/
def l1index_to_prio (cfg : Config) (l1index : Nat) : Nat :=
  toWord cfg (l1index <<< cfg.wordRadix)

/-- The function `invert_l1index(l1index)`. -/
def invert_l1index (cfg : Config) (l1index : Nat) : Checked Nat := do
  let inverted := wordSub cfg (wordSub cfg cfg.L2_BITMAP_SIZE 1) l1index
  assert (decide (inverted < cfg.L2_BITMAP_SIZE))
  pure inverted

/-- Leading zeros among the bits `n - 1, .., 0` of `x`. -/
def clzlFrom (x : Nat) : Nat → Nat
  | 0 => 0
  | n + 1 => if x.testBit n then 0 else clzlFrom x n + 1

/-- The count-leading-zeros primitive `clzl` on a machine word. Its result on
0 is undefined in C; callers assert the argument is non-zero. -/
def clzl (cfg : Config) (x : Nat) : Nat := clzlFrom x (wordBits cfg)

/-- The function `getHighestPrio(dom)`. -/
def getHighestPrio (cfg : Config) (s : KState) (dom : Nat) : Checked Nat := do
  assert (s.ksReadyQueuesL1Bitmap dom != 0)
  let l1index := wordSub cfg (wordSub cfg (wordBits cfg) 1) (clzl cfg (s.ksReadyQueuesL1Bitmap dom))
  let l1index_inverted ← invert_l1index cfg l1index
  assert (s.ksReadyQueuesL2Bitmap dom l1index_inverted != 0)
  let l2index := wordSub cfg (wordSub cfg (wordBits cfg) 1)
    (clzl cfg (s.ksReadyQueuesL2Bitmap dom l1index_inverted))
  pure (l1index_to_prio cfg l1index ||| l2index)

/-- The function `isHighestPrio(dom, prio)`; `||` evaluates its right operand only when the
left one is false. -/
def isHighestPrio (cfg : Config) (s : KState) (dom prio : Nat) : Checked Bool :=
  if s.ksReadyQueuesL1Bitmap dom == 0 then pure true
  else do
    let hp ← getHighestPrio cfg s dom
    pure (decide (prio ≥ hp))

/-- The function `isRunnable(thread)`; the `ThreadState_RunningVM` case label is compiled
only under `CONFIG_VTX`, otherwise that value falls to `default`. -/
def isRunnable (cfg : Config) (thread : tcb_t) : Bool :=
  match thread.tcbState with
  | .ThreadState_Running => true
  | .ThreadState_Restart => true
  | .ThreadState_RunningVM => cfg.CONFIG_VTX
  | _ => false

/-! ## Refills

The refill helpers live in `kernel/sporadic.h`, outside this file. The
accessors of the refill buffer are modelled on the list of refills; the
helpers whose policy the header does not fix are parameters (`Externs`). -/

/-- Modelled from the spec: `MIN_REFILLS`, the number of refills of a
round-robin scheduling context (head and tail). -/
def MIN_REFILLS : Nat := 2

/-- Modelled from the spec: `REFILL_HEAD(sc)`, the first refill of the
buffer. -/
def REFILL_HEAD (sc : sched_context_t) : refill_t := sc.refills.headD ⟨0, 0⟩

/-- Modelled from the spec: `REFILL_TAIL(sc)`, the last refill of the
buffer. -/
def REFILL_TAIL (sc : sched_context_t) : refill_t := sc.refills.getLastD ⟨0, 0⟩

/-- Modelled from the spec: `refill_size(sc)`, the number of refills in the
buffer. -/
def refill_size (sc : sched_context_t) : Nat := sc.refills.length

/-- Modelled from the spec: `refill_full(sc)`, the buffer holds its maximum
number of refills. -/
def refill_full (sc : sched_context_t) : Bool := refill_size sc == sc.scRefillMax

/-- Assignment `REFILL_HEAD(sc).rAmount = a`. -/
def setHeadAmount (sc : sched_context_t) (a : Nat) : sched_context_t :=
  { sc with refills :=
      match sc.refills with
      | [] => []
      | r :: rs => { r with rAmount := a } :: rs }

/-- Assignment of the amount of the last refill of a list. -/
def setLastAmount : List refill_t → Nat → List refill_t
  | [], _ => []
  | [r], a => [{ r with rAmount := a }]
  | r :: r' :: rs, a => r :: setLastAmount (r' :: rs) a

/-- Assignment `REFILL_TAIL(sc).rAmount = a`. -/
def setTailAmount (sc : sched_context_t) (a : Nat) : sched_context_t :=
  { sc with refills := setLastAmount sc.refills a }

/-- Sum of the refill amounts of a scheduling context. -/
def refillSum (sc : sched_context_t) : Nat := (sc.refills.map (·.rAmount)).sum

/-- Functions declared but not defined in this header (`kernel/sporadic.h`,
`kernel/thread.c`). `refill_split_check` returns the refill buffer after the
split; `setThreadState` is applied to the current thread. -/
structure Externs where
  refill_capacity : sched_context_t → Nat → Nat
  refill_sufficient : sched_context_t → Nat → Bool
  refill_ready : KState → sched_context_t → Bool
  refill_split_check : KState → sched_context_t → Nat → List refill_t
  chargeBudget : Nat → Nat → Bool → Nat → Bool → KState → KState
  rescheduleRequired : KState → KState
  setThreadState : thread_state_type → KState → KState

/-- Calls a function of this header makes to the functions of `Externs` that
change the state. -/
inductive ExtCall where
  | chargeBudget (capacity consumed : Nat) (canTimeoutFault : Bool) (core : Nat)
      (isCurCPU : Bool)
  | rescheduleRequired
  | setThreadState (ts : thread_state_type)
  deriving DecidableEq, Repr

/-! ## Time accounting -/

/-- The function `isRoundRobin(sc)`. -/
def isRoundRobin (sc : sched_context_t) : Bool := sc.scPeriod == 0

/-- The function `isCurDomainExpired()`. -/
def isCurDomainExpired (cfg : Config) (s : KState) : Bool :=
  decide (cfg.CONFIG_NUM_DOMAINS > 1) &&
    decide (s.ksDomainTime < ticksAdd s.ksConsumed cfg.MIN_BUDGET)

/-- Lines 116-124 of `commitTime`: the charge of `ksConsumed` to the refills of
the current scheduling context. -/
def commitRefills (X : Externs) (s : KState) : Checked sched_context_t :=
  if isRoundRobin s.ksCurSC then do
    assert (refill_size s.ksCurSC == MIN_REFILLS)
    let sc1 := setHeadAmount s.ksCurSC (ticksSub (REFILL_HEAD s.ksCurSC).rAmount s.ksConsumed)
    pure (setTailAmount sc1 (ticksAdd (REFILL_TAIL sc1).rAmount s.ksConsumed))
  else
    pure { s.ksCurSC with refills := X.refill_split_check s s.ksCurSC s.ksConsumed }

/-- Lines 109-127 of `commitTime`. -/
def commitConsumed (X : Externs) (s : KState) : Checked KState :=
  if s.ksConsumed > 0 then do
    assert (X.refill_sufficient s.ksCurSC s.ksConsumed)
    assert (X.refill_ready s s.ksCurSC)
    let sc ← commitRefills X s
    let s1 := { s with ksCurSC := sc }
    assert (X.refill_sufficient s1.ksCurSC 0)
    assert (X.refill_ready s1 s1.ksCurSC)
    pure s1
  else pure s

/-- The two assertions of lines 129-130 of `commitTime`. -/
def commitDomainAsserts (cfg : Config) (s : KState) : Checked Unit := do
  assert (decide (s.ksDomainTime > s.ksConsumed))
  assert (decide (ticksSub s.ksDomainTime s.ksConsumed ≥ cfg.MIN_BUDGET))

/-- Lines 128-132 of `commitTime`. -/
def commitDomain (cfg : Config) (s : KState) : Checked KState :=
  if cfg.CONFIG_NUM_DOMAINS > 1 then do
    commitDomainAsserts cfg s
    pure { s with ksDomainTime := ticksSub s.ksDomainTime s.ksConsumed }
  else pure s

/-- The function `commitTime()`. -/
def commitTime (cfg : Config) (X : Externs) (s : KState) : Checked KState := do
  let s1 ← commitConsumed X s
  let s2 ← commitDomain cfg s1
  pure { s2 with
    ksCurSC := { s2.ksCurSC with scConsumed := ticksAdd s2.ksCurSC.scConsumed s2.ksConsumed }
    ksConsumed := 0 }

/-- The function `rollbackTime()`. -/
def rollbackTime (s : KState) : Checked KState := do
  assert (!s.ksReprogram || s.ksConsumed == 0)
  pure { s with ksCurTime := ticksSub s.ksCurTime s.ksConsumed, ksConsumed := 0 }

/-- The function `updateTimestamp(incrementConsumedTime)`; `now` is the value
`getCurrentTime()` returns. -/
def updateTimestamp (cfg : Config) (now : Nat) (incrementConsumedTime : Bool) (s : KState) :
    KState :=
  let prev := s.ksCurTime
  let s1 := { s with ksCurTime := now }
  if (cfg.CONFIG_DEBUG_BUILD || cfg.CONFIG_PRINTING) && incrementConsumedTime then
    { s1 with ksConsumed := ticksAdd s1.ksConsumed (ticksSub s1.ksCurTime prev) }
  else
    { s1 with ksConsumed := ticksSub s1.ksCurTime prev }

/-- The capacity test of `checkBudget` (line 242). -/
def capacityTest (cfg : Config) (s : KState) (capacity : Nat) : Bool :=
  decide (capacity ≥ cfg.MIN_BUDGET) && (isRoundRobin s.ksCurSC || !refill_full s.ksCurSC)

/-- The function `checkBudget()`: the returned value, the state after the call and the
external calls made, in order. -/
def checkBudget (cfg : Config) (X : Externs) (s : KState) :
    Checked (Bool × KState × List ExtCall) := do
  assert (X.refill_ready s s.ksCurSC)
  let capacity := X.refill_capacity s.ksCurSC s.ksConsumed
  if capacityTest cfg s capacity then
    if isCurDomainExpired cfg s then
      let s1 := { s with ksReprogram := true }
      pure (false, X.rescheduleRequired s1, [ExtCall.rescheduleRequired])
    else
      pure (true, s, [])
  else
    pure (false, X.chargeBudget capacity s.ksConsumed true s.currentCpuIndex true s,
      [ExtCall.chargeBudget capacity s.ksConsumed true s.currentCpuIndex true])

/-- The function `checkBudgetRestart()`. -/
def checkBudgetRestart (cfg : Config) (X : Externs) (s : KState) :
    Checked (Bool × KState × List ExtCall) := do
  assert (isRunnable cfg s.ksCurThread)
  let r ← checkBudget cfg X s
  if !r.1 && isRunnable cfg r.2.1.ksCurThread then
    pure (r.1, X.setThreadState .ThreadState_Restart r.2.1,
      r.2.2 ++ [ExtCall.setThreadState .ThreadState_Restart])
  else
    pure r

/-! ## Predicates of the specification -/

/-- The queue of priority `p` in domain `d` exists and is non-empty. -/
def queueNonEmpty (cfg : Config) (s : KState) (d p : Nat) : Bool :=
  decide (p < cfg.CONFIG_NUM_PRIORITIES) &&
    !(s.ksReadyQueues (ready_queues_index cfg d p).val).isEmpty

/-- The constants fit the bitmaps: every priority has a level-2 bit and every
level-2 word has a level-1 bit. -/
def Config.bitmapsFit (cfg : Config) : Prop :=
  cfg.CONFIG_NUM_PRIORITIES ≤ cfg.L2_BITMAP_SIZE * wordBits cfg ∧
    cfg.L2_BITMAP_SIZE ≤ wordBits cfg

/-- The bitmaps of domain `d` mirror its ready queues: the bitmap words are
machine words, the level-2 bit of priority `p`, held in the word at index
`L2_BITMAP_SIZE - 1 - (p >> wordRadix)`, is set iff queue `(d, p)` is
non-empty, and level-1 bit `b` is set iff some queue in bucket `b` is
non-empty. -/
def BitmapsMirror (cfg : Config) (s : KState) (d : Nat) : Prop :=
  s.ksReadyQueuesL1Bitmap d < 2 ^ wordBits cfg ∧
  (∀ i, i < cfg.L2_BITMAP_SIZE → s.ksReadyQueuesL2Bitmap d i < 2 ^ wordBits cfg) ∧
  (∀ p, p < cfg.L2_BITMAP_SIZE * wordBits cfg →
    ((s.ksReadyQueuesL2Bitmap d (cfg.L2_BITMAP_SIZE - 1 - prio_to_l1index cfg p)).testBit
      (p % wordBits cfg) = true ↔ queueNonEmpty cfg s d p = true)) ∧
  (∀ b, b < wordBits cfg →
    ((s.ksReadyQueuesL1Bitmap d).testBit b = true ↔
      ∃ p, p < cfg.CONFIG_NUM_PRIORITIES ∧ prio_to_l1index cfg p = b ∧
        queueNonEmpty cfg s d p = true))

instance (cfg : Config) (s : KState) (d : Nat) : Decidable (BitmapsMirror cfg s d) := by
  unfold BitmapsMirror; infer_instance

instance (cfg : Config) : Decidable cfg.bitmapsFit := by
  unfold Config.bitmapsFit; infer_instance

/-- Index `k` is the most significant set bit of `x` (spec-side notion). -/
def IsMsb (x k : Nat) : Prop := x.testBit k = true ∧ ∀ j, x.testBit j = true → j ≤ k

/-! ## Example configurations and states -/

/-- A 64-bit build with one domain, 256 priorities and `MIN_BUDGET = 10`. -/
def cfg1 : Config :=
  { wordRadix := 6, CONFIG_NUM_DOMAINS := 1, CONFIG_NUM_PRIORITIES := 256, L2_BITMAP_SIZE := 4,
    MIN_BUDGET := 10, CONFIG_DEBUG_BUILD := false, CONFIG_PRINTING := false,
    CONFIG_VTX := false }

/-- The same build with two domains. -/
def cfg2 : Config := { cfg1 with CONFIG_NUM_DOMAINS := 2 }

/-- A round-robin scheduling context with budget 1000, nothing consumed yet. -/
def scRR : sched_context_t :=
  { scPeriod := 0, scBudget := 1000, scConsumed := 0, scRefillMax := 2,
    refills := [⟨1000, 0⟩, ⟨0, 0⟩] }

/-- A state with empty ready queues and a round-robin current context. -/
def sIdle : KState :=
  { ksReadyQueuesL1Bitmap := fun _ => 0, ksReadyQueuesL2Bitmap := fun _ _ => 0,
    ksReadyQueues := fun _ => [], ksCurThread := ⟨.ThreadState_Running⟩, ksCurSC := scRR,
    ksCurTime := 5000, ksConsumed := 0, ksReprogram := false, ksDomainTime := 100000,
    currentCpuIndex := 0 }

/-- Thread 1 (priority 5) is the only queued thread of domain 0. -/
def sPrio5 : KState :=
  { sIdle with
    ksReadyQueuesL1Bitmap := fun d => if d = 0 then 1 else 0
    ksReadyQueuesL2Bitmap := fun d i => if d = 0 ∧ i = 3 then 2 ^ 5 else 0
    ksReadyQueues := fun i => if i = 5 then [1] else [] }

/-- Thread 1 (priority 5) and thread 2 (priority 10) are queued in domain 0. -/
def sPrio5and10 : KState :=
  { sIdle with
    ksReadyQueuesL1Bitmap := fun d => if d = 0 then 1 else 0
    ksReadyQueuesL2Bitmap := fun d i => if d = 0 ∧ i = 3 then 2 ^ 5 + 2 ^ 10 else 0
    ksReadyQueues := fun i => if i = 5 then [1] else if i = 10 then [2] else [] }

/-- A sample instance of the external functions: capacity is what is left of
the head refill, a refill is sufficient when it covers the usage and ready
when its time has passed, the split leaves the buffer as it is, and the three
state-changing functions only record the new thread state. -/
def extSample : Externs :=
  { refill_capacity := fun sc usage =>
      if usage > (REFILL_HEAD sc).rAmount then 0 else (REFILL_HEAD sc).rAmount - usage
    refill_sufficient := fun sc usage => decide (usage ≤ (REFILL_HEAD sc).rAmount)
    refill_ready := fun s sc => decide ((REFILL_HEAD sc).rTime ≤ s.ksCurTime)
    refill_split_check := fun _ sc _ => sc.refills
    chargeBudget := fun _ _ _ _ _ s => s
    rescheduleRequired := fun s => s
    setThreadState := fun ts s => { s with ksCurThread := ⟨ts⟩ } }

/-- A periodic scheduling context whose refill buffer is full; its head refill
holds 50 ticks. -/
def scPeriodicFull : sched_context_t :=
  { scPeriod := 200, scBudget := 100, scConsumed := 0, scRefillMax := 2,
    refills := [⟨50, 0⟩, ⟨50, 200⟩] }

/-- The current context is periodic with a full refill buffer and capacity 50. -/
def sPeriodicFull : KState := { sIdle with ksCurSC := scPeriodicFull }

/-- Two domains: the window has 5 ticks left, the round-robin context 1000. -/
def sDomainShort : KState := { sIdle with ksDomainTime := 5 }

/-- Two domains: window 100, consumed 95. -/
def sDomain100 : KState := { sIdle with ksDomainTime := 100, ksConsumed := 95 }

/-- The round-robin context of budget 1000 after 300 ticks were consumed. -/
def sConsumed300 : KState := { sIdle with ksConsumed := 300 }

/-- A state in which 7 ticks are already in the consumed counter. -/
def sConsumed7 : KState := { sIdle with ksConsumed := 7 }

/-- The elapsed time of the specification: the difference between the clock
reading and the previous timestamp, modulo `2 ^ 64`. -/
def elapsedSpec (now prev : Nat) : Nat := (((now : Int) - (prev : Int)) % 2 ^ 64).toNat

/-- The specification of `updateTimestamp` under its precondition: the
timestamp becomes the clock reading and the consumed counter the elapsed
time. -/
def updateTimestampSpec (now : Nat) (s : KState) : KState :=
  { s with ksCurTime := now, ksConsumed := elapsedSpec now s.ksCurTime }

/-! # Theorems -/

theorem wordBits_pos (cfg : Config) : 0 < wordBits cfg := Nat.two_pow_pos _

theorem wordBits_lt (cfg : Config) : wordBits cfg < 2 ^ wordBits cfg := Nat.lt_two_pow _

theorem wordSub_eq (cfg : Config) {a b : Nat} (hba : b ≤ a) (ha : a < 2 ^ wordBits cfg) :
    wordSub cfg a b = a - b := by
  have hb : b < 2 ^ wordBits cfg := lt_of_le_of_lt hba ha
  unfold wordSub toWord
  rw [Nat.mod_eq_of_lt ha, Nat.mod_eq_of_lt hb]
  have : a + (2 ^ wordBits cfg - b) = (a - b) + 2 ^ wordBits cfg := by omega
  rw [this, Nat.add_mod_right, Nat.mod_eq_of_lt (by omega)]

theorem clzlFrom_spec (x : Nat) : ∀ n : Nat, (∃ i, i < n ∧ x.testBit i = true) →
    clzlFrom x n < n ∧ x.testBit (n - 1 - clzlFrom x n) = true ∧
      ∀ j, j < n → x.testBit j = true → j ≤ n - 1 - clzlFrom x n
  | 0, h => by obtain ⟨i, hi, _⟩ := h; omega
  | n + 1, h => by
    unfold clzlFrom
    by_cases hb : x.testBit n = true
    · simp only [hb, if_true]
      refine ⟨by omega, by simpa using hb, fun j hj _ => by omega⟩
    · have hbf : x.testBit n = false := by simpa using hb
      simp only [hbf, Bool.false_eq_true, if_false]
      have h' : ∃ i, i < n ∧ x.testBit i = true := by
        obtain ⟨i, hi, hxi⟩ := h
        refine ⟨i, ?_, hxi⟩
        rcases Nat.lt_or_ge i n with h1 | h1
        · exact h1
        · have : i = n := by omega
          subst this; exact absurd hxi hb
      obtain ⟨h1, h2, h3⟩ := clzlFrom_spec x n h'
      refine ⟨by omega, ?_, ?_⟩
      · have : n + 1 - 1 - (clzlFrom x n + 1) = n - 1 - clzlFrom x n := by omega
        rw [this]; exact h2
      · intro j hj hxj
        have hjn : j < n := by
          rcases Nat.lt_or_ge j n with h4 | h4
          · exact h4
          · have : j = n := by omega
            subst this; exact absurd hxj hb
        have := h3 j hjn hxj
        omega

theorem msb_spec (cfg : Config) (x : Nat) (hx0 : x ≠ 0) (hx : x < 2 ^ wordBits cfg) :
    wordSub cfg (wordSub cfg (wordBits cfg) 1) (clzl cfg x) < wordBits cfg ∧
    x.testBit (wordSub cfg (wordSub cfg (wordBits cfg) 1) (clzl cfg x)) = true ∧
    ∀ j, x.testBit j = true → j ≤ wordSub cfg (wordSub cfg (wordBits cfg) 1) (clzl cfg x) := by
  have hW := wordBits_pos cfg
  have hW2 := wordBits_lt cfg
  have hex : ∃ i, i < wordBits cfg ∧ x.testBit i = true := by
    obtain ⟨i, hi⟩ := Nat.ne_zero_implies_bit_true hx0
    refine ⟨i, ?_, hi⟩
    by_contra hge
    have hle : 2 ^ wordBits cfg ≤ 2 ^ i := Nat.pow_le_pow_right (by decide) (by omega)
    have := Nat.testBit_lt_two_pow (lt_of_lt_of_le hx hle)
    simp [hi] at this
  obtain ⟨h1, h2, h3⟩ := clzlFrom_spec x (wordBits cfg) hex
  have e1 : wordSub cfg (wordBits cfg) 1 = wordBits cfg - 1 := wordSub_eq cfg (by omega) hW2
  have e2 : wordSub cfg (wordBits cfg - 1) (clzl cfg x) = wordBits cfg - 1 - clzl cfg x :=
    wordSub_eq cfg (by unfold clzl; omega) (by omega)
  rw [e1, e2]
  unfold clzl
  refine ⟨by omega, h2, ?_⟩
  intro j hj
  apply h3 j _ hj
  by_contra hge
  have hle : 2 ^ wordBits cfg ≤ 2 ^ j := Nat.pow_le_pow_right (by decide) (by omega)
  have := Nat.testBit_lt_two_pow (lt_of_lt_of_le hx hle)
  simp [hj] at this


/-! ## The assertion monad -/

@[simp] theorem Checked.pure_val {α : Type} (a : α) : (pure a : Checked α).val = a := rfl

@[simp] theorem Checked.pure_ok {α : Type} (a : α) : (pure a : Checked α).ok = true := rfl

@[simp] theorem Checked.bind_val {α β : Type} (m : Checked α) (f : α → Checked β) :
    (m >>= f).val = (f m.val).val := rfl

@[simp] theorem Checked.bind_ok {α β : Type} (m : Checked α) (f : α → Checked β) :
    (m >>= f).ok = (m.ok && (f m.val).ok) := rfl

@[simp] theorem assert_ok (c : Bool) : (assert c).ok = c := rfl

/-! ## Highest priority -/

theorem two_mul_le_two_pow : ∀ r : Nat, 2 * r ≤ 2 ^ r
  | 0 => by simp
  | 1 => by simp
  | r + 2 => by
    have := two_mul_le_two_pow (r + 1)
    have h2 : 2 ^ (r + 2) = 2 * 2 ^ (r + 1) := by ring
    have h3 : 1 ≤ 2 ^ (r + 1) := Nat.one_le_two_pow
    omega

theorem wordBits_sq_le (cfg : Config) : wordBits cfg * wordBits cfg ≤ 2 ^ wordBits cfg := by
  unfold wordBits
  rw [← pow_add]
  apply Nat.pow_le_pow_right (by decide)
  have := two_mul_le_two_pow cfg.wordRadix
  omega

theorem l1index_to_prio_or (cfg : Config) {k o : Nat} (hk : k < wordBits cfg)
    (ho : o < wordBits cfg) : l1index_to_prio cfg k ||| o = k * wordBits cfg + o := by
  have hW := wordBits_pos cfg
  have hsq := wordBits_sq_le cfg
  have hlt : k * wordBits cfg < 2 ^ wordBits cfg := by
    have : k * wordBits cfg < wordBits cfg * wordBits cfg :=
      Nat.mul_lt_mul_of_pos_right hk hW
    omega
  unfold l1index_to_prio toWord
  rw [Nat.shiftLeft_eq]
  have e : k * 2 ^ cfg.wordRadix = k * wordBits cfg := rfl
  rw [e, Nat.mod_eq_of_lt hlt]
  have := Nat.mul_add_lt_is_or (i := cfg.wordRadix) (b := o) ho k
  rw [Nat.mul_comm] at this
  exact this.symm

theorem prio_to_l1index_eq (cfg : Config) (p : Nat) :
    prio_to_l1index cfg p = p / wordBits cfg := by
  unfold prio_to_l1index wordBits
  exact Nat.shiftRight_eq_div_pow p cfg.wordRadix

theorem getHighestPrio_val (cfg : Config) (s : KState) (d : Nat) :
    (getHighestPrio cfg s d).val =
      (l1index_to_prio cfg
          (wordSub cfg (wordSub cfg (wordBits cfg) 1) (clzl cfg (s.ksReadyQueuesL1Bitmap d))) |||
        wordSub cfg (wordSub cfg (wordBits cfg) 1)
          (clzl cfg (s.ksReadyQueuesL2Bitmap d
            (wordSub cfg (wordSub cfg cfg.L2_BITMAP_SIZE 1)
              (wordSub cfg (wordSub cfg (wordBits cfg) 1)
                (clzl cfg (s.ksReadyQueuesL1Bitmap d))))))) := rfl

theorem getHighestPrio_ok (cfg : Config) (s : KState) (d : Nat) :
    (getHighestPrio cfg s d).ok =
      (s.ksReadyQueuesL1Bitmap d != 0 &&
        (decide (wordSub cfg (wordSub cfg cfg.L2_BITMAP_SIZE 1)
            (wordSub cfg (wordSub cfg (wordBits cfg) 1)
              (clzl cfg (s.ksReadyQueuesL1Bitmap d))) < cfg.L2_BITMAP_SIZE) &&
          s.ksReadyQueuesL2Bitmap d
            (wordSub cfg (wordSub cfg cfg.L2_BITMAP_SIZE 1)
              (wordSub cfg (wordSub cfg (wordBits cfg) 1)
                (clzl cfg (s.ksReadyQueuesL1Bitmap d)))) != 0)) := by
  simp [getHighestPrio, invert_l1index]


theorem IsMsb.unique {x k k' : Nat} (h : IsMsb x k) (h' : IsMsb x k') : k = k' :=
  Nat.le_antisymm (h'.2 k h.1) (h.2 k' h'.1)

theorem msb_isMsb (cfg : Config) (x : Nat) (hx0 : x ≠ 0) (hx : x < 2 ^ wordBits cfg) :
    IsMsb x (wordSub cfg (wordSub cfg (wordBits cfg) 1) (clzl cfg x)) :=
  ⟨(msb_spec cfg x hx0 hx).2.1, (msb_spec cfg x hx0 hx).2.2⟩

theorem ne_zero_of_testBit {x k : Nat} (h : x.testBit k = true) : x ≠ 0 := by
  rintro rfl
  simp at h

/-- Value of `getHighestPrio` when the level-1 word has most significant bit
`k1` and the level-2 word the code selects has most significant bit `k2`. -/
theorem getHighestPrio_val_msb (cfg : Config) (s : KState) (d k1 k2 : Nat)
    (h1 : s.ksReadyQueuesL1Bitmap d < 2 ^ wordBits cfg)
    (hk1 : IsMsb (s.ksReadyQueuesL1Bitmap d) k1)
    (h2 : s.ksReadyQueuesL2Bitmap d (wordSub cfg (wordSub cfg cfg.L2_BITMAP_SIZE 1) k1) <
      2 ^ wordBits cfg)
    (hk2 : IsMsb (s.ksReadyQueuesL2Bitmap d
      (wordSub cfg (wordSub cfg cfg.L2_BITMAP_SIZE 1) k1)) k2) :
    k1 < wordBits cfg ∧ k2 < wordBits cfg ∧
      (getHighestPrio cfg s d).val = l1index_to_prio cfg k1 ||| k2 ∧
      (getHighestPrio cfg s d).val = k1 * wordBits cfg + k2 := by
  have hx1 : s.ksReadyQueuesL1Bitmap d ≠ 0 := ne_zero_of_testBit hk1.1
  have e1 : wordSub cfg (wordSub cfg (wordBits cfg) 1) (clzl cfg (s.ksReadyQueuesL1Bitmap d)) = k1 :=
    (msb_isMsb cfg _ hx1 h1).unique hk1
  have hk1W : k1 < wordBits cfg := by
    have := (msb_spec cfg _ hx1 h1).1
    rwa [e1] at this
  have hx2 := ne_zero_of_testBit hk2.1
  have e3 := (msb_isMsb cfg _ hx2 h2).unique hk2
  have hk2W : k2 < wordBits cfg := by
    have := (msb_spec cfg _ hx2 h2).1
    rwa [e3] at this
  have hval : (getHighestPrio cfg s d).val = l1index_to_prio cfg k1 ||| k2 := by
    rw [getHighestPrio_val, e1, e3]
  exact ⟨hk1W, hk2W, hval, by rw [hval]; exact l1index_to_prio_or cfg hk1W hk2W⟩

theorem invert_eq (cfg : Config) {k : Nat} (hL : cfg.L2_BITMAP_SIZE < 2 ^ wordBits cfg)
    (hk : k < cfg.L2_BITMAP_SIZE) :
    wordSub cfg (wordSub cfg cfg.L2_BITMAP_SIZE 1) k = cfg.L2_BITMAP_SIZE - 1 - k := by
  have e0 : wordSub cfg cfg.L2_BITMAP_SIZE 1 = cfg.L2_BITMAP_SIZE - 1 :=
    wordSub_eq cfg (by omega) hL
  rw [e0]
  exact wordSub_eq cfg (by omega) (by omega)

/-- Evaluation of `getHighestPrio` on a domain whose level-1 word has most
significant bit `k1 < L2_BITMAP_SIZE` and whose selected level-2 word has most
significant bit `k2`. -/
theorem getHighestPrio_eval (cfg : Config) (s : KState) (d k1 k2 : Nat)
    (hL : cfg.L2_BITMAP_SIZE ≤ wordBits cfg)
    (h1 : s.ksReadyQueuesL1Bitmap d < 2 ^ wordBits cfg)
    (hk1 : IsMsb (s.ksReadyQueuesL1Bitmap d) k1) (hk1L : k1 < cfg.L2_BITMAP_SIZE)
    (h2 : s.ksReadyQueuesL2Bitmap d (cfg.L2_BITMAP_SIZE - 1 - k1) < 2 ^ wordBits cfg)
    (hk2 : IsMsb (s.ksReadyQueuesL2Bitmap d (cfg.L2_BITMAP_SIZE - 1 - k1)) k2) :
    (getHighestPrio cfg s d).ok = true ∧
      (getHighestPrio cfg s d).val = k1 * wordBits cfg + k2 := by
  have hW2 := wordBits_lt cfg
  have hx1 : s.ksReadyQueuesL1Bitmap d ≠ 0 := ne_zero_of_testBit hk1.1
  have e1 : wordSub cfg (wordSub cfg (wordBits cfg) 1) (clzl cfg (s.ksReadyQueuesL1Bitmap d)) = k1 :=
    (msb_isMsb cfg _ hx1 h1).unique hk1
  have e2 := invert_eq cfg (lt_of_le_of_lt hL hW2) hk1L
  have hx2 : s.ksReadyQueuesL2Bitmap d (cfg.L2_BITMAP_SIZE - 1 - k1) ≠ 0 := ne_zero_of_testBit hk2.1
  constructor
  · rw [getHighestPrio_ok, e1, e2]
    simp [hx1, hx2]
    omega
  · rw [← e2] at h2 hk2
    exact (getHighestPrio_val_msb cfg s d k1 k2 h1 hk1 h2 hk2).2.2.2

theorem queueNonEmpty_lt {cfg : Config} {s : KState} {d p : Nat}
    (h : queueNonEmpty cfg s d p = true) : p < cfg.CONFIG_NUM_PRIORITIES := by
  unfold queueNonEmpty at h
  simp at h
  exact h.1

/-- Under the mirror invariant every non-empty queue has its level-1 and its
level-2 bit set. -/
theorem mirror_bits (cfg : Config) (s : KState) (d : Nat) (hfit : cfg.bitmapsFit)
    (hm : BitmapsMirror cfg s d) (p : Nat) (hp : queueNonEmpty cfg s d p = true) :
    p / wordBits cfg < cfg.L2_BITMAP_SIZE ∧
      (s.ksReadyQueuesL1Bitmap d).testBit (p / wordBits cfg) = true ∧
      (s.ksReadyQueuesL2Bitmap d (cfg.L2_BITMAP_SIZE - 1 - p / wordBits cfg)).testBit
        (p % wordBits cfg) = true := by
  obtain ⟨hN, hL⟩ := hfit
  obtain ⟨hw1, hw2, hb2, hb1⟩ := hm
  have hW := wordBits_pos cfg
  have hpN := queueNonEmpty_lt hp
  have hpL : p < cfg.L2_BITMAP_SIZE * wordBits cfg := lt_of_lt_of_le hpN hN
  have hb : p / wordBits cfg < cfg.L2_BITMAP_SIZE := by
    rw [Nat.div_lt_iff_lt_mul hW]; exact hpL
  refine ⟨hb, ?_, ?_⟩
  · exact (hb1 _ (by omega)).2 ⟨p, hpN, prio_to_l1index_eq cfg p, hp⟩
  · have := (hb2 p hpL).2 hp
    rwa [prio_to_l1index_eq] at this

/-- Under the mirror invariant a non-zero level-1 word means some queue is
non-empty. -/
theorem mirror_nonEmpty_of_ne_zero (cfg : Config) (s : KState) (d : Nat)
    (hm : BitmapsMirror cfg s d) (h0 : s.ksReadyQueuesL1Bitmap d ≠ 0) :
    ∃ p, queueNonEmpty cfg s d p = true := by
  obtain ⟨hw1, _, _, hb1⟩ := hm
  obtain ⟨hkW, hkt, _⟩ := msb_spec cfg _ h0 hw1
  obtain ⟨p, _, _, hp⟩ := (hb1 _ hkW).1 hkt
  exact ⟨p, hp⟩

/-- Under the mirror invariant, a domain with a non-empty queue has a level-1
word whose most significant bit is a bucket below `L2_BITMAP_SIZE`, and the
level-2 word of that bucket has a most significant bit; the priority they
denote is the greatest one with a non-empty queue. -/
theorem mirror_msb (cfg : Config) (s : KState) (d : Nat) (hfit : cfg.bitmapsFit)
    (hm : BitmapsMirror cfg s d) (hne : ∃ p, queueNonEmpty cfg s d p = true) :
    ∃ k1 k2, k1 < cfg.L2_BITMAP_SIZE ∧ k2 < wordBits cfg ∧
      IsMsb (s.ksReadyQueuesL1Bitmap d) k1 ∧
      IsMsb (s.ksReadyQueuesL2Bitmap d (cfg.L2_BITMAP_SIZE - 1 - k1)) k2 ∧
      queueNonEmpty cfg s d (k1 * wordBits cfg + k2) = true ∧
      ∀ p, queueNonEmpty cfg s d p = true → p ≤ k1 * wordBits cfg + k2 := by
  obtain ⟨hN, hL⟩ := hfit
  obtain ⟨hw1, hw2, hb2, hb1⟩ := hm
  have hW := wordBits_pos cfg
  have key := mirror_bits cfg s d ⟨hN, hL⟩ ⟨hw1, hw2, hb2, hb1⟩
  obtain ⟨p0, hp0⟩ := hne
  obtain ⟨_, hp0b, _⟩ := key p0 hp0
  have hx1 : s.ksReadyQueuesL1Bitmap d ≠ 0 := ne_zero_of_testBit hp0b
  obtain ⟨hk1W, hk1t, hk1m⟩ := msb_spec cfg _ hx1 hw1
  generalize wordSub cfg (wordSub cfg (wordBits cfg) 1)
    (clzl cfg (s.ksReadyQueuesL1Bitmap d)) = k1 at hk1W hk1t hk1m
  obtain ⟨p1, hp1N, hp1b, hp1⟩ := (hb1 k1 hk1W).1 hk1t
  rw [prio_to_l1index_eq] at hp1b
  obtain ⟨hk1L, _, hp1t⟩ := key p1 hp1
  rw [hp1b] at hk1L hp1t
  have hx2 : s.ksReadyQueuesL2Bitmap d (cfg.L2_BITMAP_SIZE - 1 - k1) ≠ 0 :=
    ne_zero_of_testBit hp1t
  obtain ⟨hk2W, hk2t, hk2m⟩ := msb_spec cfg _ hx2 (hw2 _ (by omega))
  generalize wordSub cfg (wordSub cfg (wordBits cfg) 1)
    (clzl cfg (s.ksReadyQueuesL2Bitmap d (cfg.L2_BITMAP_SIZE - 1 - k1))) = k2
    at hk2W hk2t hk2m
  have hdiv : (k1 * wordBits cfg + k2) / wordBits cfg = k1 := by
    rw [Nat.mul_comm, Nat.mul_add_div hW, Nat.div_eq_of_lt hk2W, Nat.add_zero]
  have hmod : (k1 * wordBits cfg + k2) % wordBits cfg = k2 := by
    rw [Nat.mul_comm, Nat.mul_add_mod, Nat.mod_eq_of_lt hk2W]
  have hmL : k1 * wordBits cfg + k2 < cfg.L2_BITMAP_SIZE * wordBits cfg := by
    have : (k1 + 1) * wordBits cfg ≤ cfg.L2_BITMAP_SIZE * wordBits cfg :=
      Nat.mul_le_mul_right _ hk1L
    rw [Nat.add_mul] at this
    omega
  refine ⟨k1, k2, hk1L, hk2W, ⟨hk1t, hk1m⟩, ⟨hk2t, hk2m⟩, ?_, ?_⟩
  · apply (hb2 _ hmL).1
    rw [prio_to_l1index_eq, hdiv, hmod]
    exact hk2t
  · intro p hp
    obtain ⟨_, hpb, hpt⟩ := key p hp
    have h1 : p / wordBits cfg ≤ k1 := hk1m _ hpb
    have hpeq := Nat.div_add_mod p (wordBits cfg)
    have hmodlt := Nat.mod_lt p hW
    rcases Nat.lt_or_ge (p / wordBits cfg) k1 with hlt | hge
    · have : (p / wordBits cfg + 1) * wordBits cfg ≤ k1 * wordBits cfg :=
        Nat.mul_le_mul_right _ hlt
      rw [Nat.add_mul, Nat.mul_comm] at this
      omega
    · have heq : p / wordBits cfg = k1 := by omega
      rw [heq] at hpt hpeq
      have := hk2m _ hpt
      rw [Nat.mul_comm] at hpeq
      omega

/-- C1: in a domain whose bitmaps mirror the ready queues and that has a
non-empty queue, `getHighestPrio` passes its assertions and returns the
greatest priority whose queue is non-empty. -/
theorem getHighestPrio_max (cfg : Config) (s : KState) (d : Nat) (hfit : cfg.bitmapsFit)
    (hm : BitmapsMirror cfg s d) (hne : ∃ p, queueNonEmpty cfg s d p = true) :
    (getHighestPrio cfg s d).ok = true ∧
      queueNonEmpty cfg s d (getHighestPrio cfg s d).val = true ∧
      ∀ p, queueNonEmpty cfg s d p = true → p ≤ (getHighestPrio cfg s d).val := by
  obtain ⟨k1, k2, hk1L, _, hk1, hk2, hq, hmax⟩ := mirror_msb cfg s d hfit hm hne
  obtain ⟨hok, hval⟩ := getHighestPrio_eval cfg s d k1 k2 hfit.2 hm.1 hk1 hk1L
    (hm.2.1 _ (by omega)) hk2
  rw [hval]
  exact ⟨hok, hq, hmax⟩


set_option maxRecDepth 100000 in
theorem mirror_sPrio5and10 : BitmapsMirror cfg1 sPrio5and10 0 := by decide

theorem getHighestPrio_max_witness :
    cfg1.bitmapsFit ∧ BitmapsMirror cfg1 sPrio5and10 0 ∧
      queueNonEmpty cfg1 sPrio5and10 0 5 = true ∧
      (getHighestPrio cfg1 sPrio5and10 0).ok = true ∧
      queueNonEmpty cfg1 sPrio5and10 0 (getHighestPrio cfg1 sPrio5and10 0).val = true ∧
      (getHighestPrio cfg1 sPrio5 0).val = 5 ∧
      (getHighestPrio cfg1 sPrio5and10 0).val = 10 :=
  ⟨by decide, mirror_sPrio5and10, by decide,
    (getHighestPrio_max cfg1 sPrio5and10 0 (by decide) mirror_sPrio5and10 ⟨5, by decide⟩).1,
    (getHighestPrio_max cfg1 sPrio5and10 0 (by decide) mirror_sPrio5and10 ⟨5, by decide⟩).2.1,
    by decide, by decide⟩

theorem isHighestPrio_of_zero (cfg : Config) (s : KState) (d p : Nat)
    (h0 : s.ksReadyQueuesL1Bitmap d = 0) :
    (isHighestPrio cfg s d p).val = true ∧ (isHighestPrio cfg s d p).ok = true := by
  simp [isHighestPrio, h0]

theorem isHighestPrio_of_ne_zero (cfg : Config) (s : KState) (d p : Nat)
    (h0 : s.ksReadyQueuesL1Bitmap d ≠ 0) :
    (isHighestPrio cfg s d p).val = decide (p ≥ (getHighestPrio cfg s d).val) ∧
      (isHighestPrio cfg s d p).ok = (getHighestPrio cfg s d).ok := by
  simp [isHighestPrio, h0]

/-- C2: in a domain whose bitmaps mirror the ready queues, `isHighestPrio(d, p)`
passes its assertions and returns true iff no queue of `d` at a priority
strictly greater than `p` is non-empty; when the level-1 word is 0 (which is
the case when no queue is non-empty) it returns true without calling
`getHighestPrio`, whose assertion would not hold there. -/
theorem isHighestPrio_iff (cfg : Config) (s : KState) (d p : Nat) (hfit : cfg.bitmapsFit)
    (hm : BitmapsMirror cfg s d) :
    (isHighestPrio cfg s d p).ok = true ∧
      ((isHighestPrio cfg s d p).val = true ↔
        ∀ q, queueNonEmpty cfg s d q = true → q ≤ p) ∧
      ((∀ q, queueNonEmpty cfg s d q = false) → s.ksReadyQueuesL1Bitmap d = 0) ∧
      (s.ksReadyQueuesL1Bitmap d = 0 →
        (isHighestPrio cfg s d p).val = true ∧ (getHighestPrio cfg s d).ok = false) := by
  have hempty : s.ksReadyQueuesL1Bitmap d = 0 → ∀ q, queueNonEmpty cfg s d q = true → False := by
    intro h0 q hq
    have := (mirror_bits cfg s d hfit hm q hq).2.1
    rw [h0] at this
    simp at this
  have hhp : s.ksReadyQueuesL1Bitmap d ≠ 0 →
      (getHighestPrio cfg s d).ok = true ∧
        queueNonEmpty cfg s d (getHighestPrio cfg s d).val = true ∧
        ∀ q, queueNonEmpty cfg s d q = true → q ≤ (getHighestPrio cfg s d).val := by
    intro h0
    obtain ⟨k1, k2, hk1L, _, hk1, hk2, hq, hmax⟩ :=
      mirror_msb cfg s d hfit hm (mirror_nonEmpty_of_ne_zero cfg s d hm h0)
    obtain ⟨hok, hval⟩ := getHighestPrio_eval cfg s d k1 k2 hfit.2 hm.1 hk1 hk1L
      (hm.2.1 _ (by omega)) hk2
    rw [hval]
    exact ⟨hok, hq, hmax⟩
  refine ⟨?_, ?_, ?_, ?_⟩
  · by_cases h0 : s.ksReadyQueuesL1Bitmap d = 0
    · exact (isHighestPrio_of_zero cfg s d p h0).2
    · rw [(isHighestPrio_of_ne_zero cfg s d p h0).2]
      exact (hhp h0).1
  · by_cases h0 : s.ksReadyQueuesL1Bitmap d = 0
    · rw [(isHighestPrio_of_zero cfg s d p h0).1]
      simp only [true_iff]
      intro q hq
      exact (hempty h0 q hq).elim
    · rw [(isHighestPrio_of_ne_zero cfg s d p h0).1]
      obtain ⟨_, hq, hmax⟩ := hhp h0
      simp only [decide_eq_true_eq]
      constructor
      · intro h q hq'
        exact le_trans (hmax q hq') h
      · intro h
        exact h _ hq
  · intro hall
    by_contra h0
    obtain ⟨q, hq⟩ := mirror_nonEmpty_of_ne_zero cfg s d hm h0
    rw [hall q] at hq
    exact Bool.false_ne_true hq
  · intro h0
    refine ⟨(isHighestPrio_of_zero cfg s d p h0).1, ?_⟩
    rw [getHighestPrio_ok, h0]
    simp

theorem isHighestPrio_iff_witness :
    cfg1.bitmapsFit ∧ BitmapsMirror cfg1 sPrio5and10 0 ∧
      (isHighestPrio cfg1 sPrio5and10 0 7).ok = true ∧
      (isHighestPrio cfg1 sPrio5and10 0 7).val = false ∧
      (isHighestPrio cfg1 sPrio5and10 0 10).val = true ∧
      (isHighestPrio cfg1 sIdle 0 0).val = true :=
  ⟨by decide, mirror_sPrio5and10,
    (isHighestPrio_iff cfg1 sPrio5and10 0 7 (by decide) mirror_sPrio5and10).1,
    by decide, by decide, by decide⟩


/-! ## The budget check -/

theorem checkBudget_ok (cfg : Config) (X : Externs) (s : KState) :
    (checkBudget cfg X s).ok = X.refill_ready s s.ksCurSC := by
  unfold checkBudget
  simp only [Checked.bind_ok, assert_ok]
  split <;> [split; skip] <;> simp

theorem checkBudget_val (cfg : Config) (X : Externs) (s : KState) :
    (checkBudget cfg X s).val =
      if capacityTest cfg s (X.refill_capacity s.ksCurSC s.ksConsumed) = true then
        if isCurDomainExpired cfg s = true then
          (false, X.rescheduleRequired { s with ksReprogram := true },
            [ExtCall.rescheduleRequired])
        else (true, s, [])
      else
        (false,
          X.chargeBudget (X.refill_capacity s.ksCurSC s.ksConsumed) s.ksConsumed true
            s.currentCpuIndex true s,
          [ExtCall.chargeBudget (X.refill_capacity s.ksCurSC s.ksConsumed) s.ksConsumed true
            s.currentCpuIndex true]) := by
  unfold checkBudget
  simp only [Checked.bind_val]
  split <;> [split; skip] <;> rfl

theorem capacityTest_iff (cfg : Config) (s : KState) (capacity : Nat) :
    capacityTest cfg s capacity = true ↔
      capacity ≥ cfg.MIN_BUDGET ∧
        (isRoundRobin s.ksCurSC = true ∨ refill_full s.ksCurSC = false) := by
  simp [capacityTest]

/-- C3 (as stated) fails: with two domains and a window shorter than
`MIN_BUDGET`, a round-robin context with capacity 1000 and a ready head
refill passes the capacity test and `checkBudget` still returns false. -/
theorem checkBudget_capacity_counterexample :
    ¬ ∀ (cfg : Config) (X : Externs) (s : KState), X.refill_ready s s.ksCurSC = true →
      ((checkBudget cfg X s).val.1 = true ↔
        X.refill_capacity s.ksCurSC s.ksConsumed ≥ cfg.MIN_BUDGET ∧
          (isRoundRobin s.ksCurSC = true ∨ refill_full s.ksCurSC = false)) := by
  intro h
  have := (h cfg2 extSample sDomainShort (by decide)).2 (by decide)
  exact absurd this (by decide)

/-- C3 (amended): when the head refill of the current context is ready,
`checkBudget` passes its assertion and returns true iff the capacity is at
least `MIN_BUDGET`, the context is round-robin or its refill buffer is not
full, and the current domain is not expired. -/
theorem checkBudget_true_iff (cfg : Config) (X : Externs) (s : KState)
    (hready : X.refill_ready s s.ksCurSC = true) :
    (checkBudget cfg X s).ok = true ∧
      ((checkBudget cfg X s).val.1 = true ↔
        (X.refill_capacity s.ksCurSC s.ksConsumed ≥ cfg.MIN_BUDGET ∧
          (isRoundRobin s.ksCurSC = true ∨ refill_full s.ksCurSC = false)) ∧
        isCurDomainExpired cfg s = false) := by
  refine ⟨by rw [checkBudget_ok]; exact hready, ?_⟩
  rw [checkBudget_val, ← capacityTest_iff]
  by_cases hc : capacityTest cfg s (X.refill_capacity s.ksCurSC s.ksConsumed) = true
  · by_cases hd : isCurDomainExpired cfg s = true
    · simp [hc, hd]
    · simp [hc, hd]
  · simp [hc]

theorem checkBudget_true_iff_witness :
    extSample.refill_ready sPeriodicFull sPeriodicFull.ksCurSC = true ∧
      extSample.refill_capacity sPeriodicFull.ksCurSC sPeriodicFull.ksConsumed = 50 ∧
      isRoundRobin sPeriodicFull.ksCurSC = false ∧ refill_full sPeriodicFull.ksCurSC = true ∧
      (checkBudget cfg1 extSample sPeriodicFull).val.1 = false ∧
      (checkBudget cfg1 extSample sPeriodicFull).ok = true ∧
      (checkBudget cfg1 extSample sIdle).val.1 = true :=
  ⟨by decide, by decide, by decide, by decide, by decide,
    (checkBudget_true_iff cfg1 extSample sPeriodicFull (by decide)).1, by decide⟩

/-- C4 (as stated) fails: with two domains and an expired window,
`checkBudget` returns false and its only external call is
`rescheduleRequired`; `chargeBudget` is not invoked. -/
theorem checkBudget_charge_counterexample :
    (checkBudget cfg2 extSample sDomainShort).val.1 = false ∧
      (checkBudget cfg2 extSample sDomainShort).val.2.2 = [ExtCall.rescheduleRequired] := by
  decide

/-- C4 (amended): whenever `checkBudget` returns false, either the capacity
test failed and the only external call is one `chargeBudget` with the
capacity computed, the consumed counter observed, `canTimeoutFault = true`,
the current core index and `isCurCPU = true` (the state after the call being
the one `chargeBudget` yields), or the capacity test passed, the domain is
expired and `chargeBudget` is not invoked. -/
theorem checkBudget_false_calls (cfg : Config) (X : Externs) (s : KState)
    (hf : (checkBudget cfg X s).val.1 = false) :
    (capacityTest cfg s (X.refill_capacity s.ksCurSC s.ksConsumed) = false ∧
      (checkBudget cfg X s).val.2.2 =
        [ExtCall.chargeBudget (X.refill_capacity s.ksCurSC s.ksConsumed) s.ksConsumed true
          s.currentCpuIndex true] ∧
      (checkBudget cfg X s).val.2.1 =
        X.chargeBudget (X.refill_capacity s.ksCurSC s.ksConsumed) s.ksConsumed true
          s.currentCpuIndex true s) ∨
    (capacityTest cfg s (X.refill_capacity s.ksCurSC s.ksConsumed) = true ∧
      isCurDomainExpired cfg s = true ∧
      (checkBudget cfg X s).val.2.2 = [ExtCall.rescheduleRequired]) := by
  rw [checkBudget_val] at hf ⊢
  by_cases hc : capacityTest cfg s (X.refill_capacity s.ksCurSC s.ksConsumed) = true
  · by_cases hd : isCurDomainExpired cfg s = true
    · right; simp [hc, hd]
    · simp [hc, hd] at hf
  · left; simp [hc]

theorem checkBudget_false_calls_witness :
    (checkBudget cfg1 extSample sPeriodicFull).val.1 = false ∧
      (checkBudget cfg1 extSample sPeriodicFull).val.2.2 =
        [ExtCall.chargeBudget 50 0 true 0 true] ∧
      ((capacityTest cfg1 sPeriodicFull
            (extSample.refill_capacity sPeriodicFull.ksCurSC sPeriodicFull.ksConsumed) = false ∧
          (checkBudget cfg1 extSample sPeriodicFull).val.2.2 =
            [ExtCall.chargeBudget
              (extSample.refill_capacity sPeriodicFull.ksCurSC sPeriodicFull.ksConsumed)
              sPeriodicFull.ksConsumed true sPeriodicFull.currentCpuIndex true] ∧
          (checkBudget cfg1 extSample sPeriodicFull).val.2.1 =
            extSample.chargeBudget
              (extSample.refill_capacity sPeriodicFull.ksCurSC sPeriodicFull.ksConsumed)
              sPeriodicFull.ksConsumed true sPeriodicFull.currentCpuIndex true sPeriodicFull) ∨
        (capacityTest cfg1 sPeriodicFull
            (extSample.refill_capacity sPeriodicFull.ksCurSC sPeriodicFull.ksConsumed) = true ∧
          isCurDomainExpired cfg1 sPeriodicFull = true ∧
          (checkBudget cfg1 extSample sPeriodicFull).val.2.2 = [ExtCall.rescheduleRequired])) :=
  ⟨by decide, by decide, checkBudget_false_calls cfg1 extSample sPeriodicFull (by decide)⟩


/-! ## Tick arithmetic -/

theorem ticksSub_eq {a b : Nat} (hba : b ≤ a) (ha : a < 2 ^ 64) : ticksSub a b = a - b := by
  unfold ticksSub toTicks
  omega

theorem ticksAdd_eq {a b : Nat} (h : a + b < 2 ^ 64) : ticksAdd a b = a + b := by
  unfold ticksAdd
  omega

theorem ticksSub_lt (a b : Nat) : ticksSub a b < 2 ^ 64 := by
  unfold ticksSub
  omega

theorem ticksSub_zero {a : Nat} (ha : a < 2 ^ 64) : ticksSub a 0 = a :=
  ticksSub_eq (Nat.zero_le a) ha

theorem ticksSub_ticksSub (a : Nat) {b : Nat} (hb : b < 2 ^ 64) :
    ticksSub a (ticksSub a b) = b := by
  unfold ticksSub toTicks
  omega

theorem ticksSub_eq_elapsedSpec (a b : Nat) : ticksSub a b = elapsedSpec a b := by
  unfold ticksSub toTicks elapsedSpec
  omega

/-! ## Committing time -/

theorem commitRefills_val_rr (X : Externs) (s : KState) (h t : refill_t)
    (hrr : isRoundRobin s.ksCurSC = true) (hrf : s.ksCurSC.refills = [h, t]) :
    (commitRefills X s).val =
      { s.ksCurSC with
        refills := [⟨ticksSub h.rAmount s.ksConsumed, h.rTime⟩,
          ⟨ticksAdd t.rAmount s.ksConsumed, t.rTime⟩] } := by
  unfold commitRefills
  simp [hrr, setTailAmount, setHeadAmount, setLastAmount, REFILL_HEAD, REFILL_TAIL, hrf]

theorem commitConsumed_val (X : Externs) (s : KState) :
    (commitConsumed X s).val =
      if s.ksConsumed > 0 then { s with ksCurSC := (commitRefills X s).val } else s := by
  unfold commitConsumed
  split <;> rfl

theorem commitDomain_val (cfg : Config) (s : KState) :
    (commitDomain cfg s).val =
      if cfg.CONFIG_NUM_DOMAINS > 1 then
        { s with ksDomainTime := ticksSub s.ksDomainTime s.ksConsumed }
      else s := by
  unfold commitDomain
  split <;> rfl

theorem commitTime_val (cfg : Config) (X : Externs) (s : KState) :
    (commitTime cfg X s).val =
      { (commitDomain cfg (commitConsumed X s).val).val with
        ksCurSC :=
          { (commitDomain cfg (commitConsumed X s).val).val.ksCurSC with
            scConsumed :=
              ticksAdd (commitDomain cfg (commitConsumed X s).val).val.ksCurSC.scConsumed
                (commitDomain cfg (commitConsumed X s).val).val.ksConsumed }
        ksConsumed := 0 } := rfl

theorem commitDomain_val_ksCurSC (cfg : Config) (s : KState) :
    (commitDomain cfg s).val.ksCurSC = s.ksCurSC := by
  rw [commitDomain_val]; split <;> rfl

theorem commitDomain_val_ksConsumed (cfg : Config) (s : KState) :
    (commitDomain cfg s).val.ksConsumed = s.ksConsumed := by
  rw [commitDomain_val]; split <;> rfl

theorem commitConsumed_val_ksConsumed (X : Externs) (s : KState) :
    (commitConsumed X s).val.ksConsumed = s.ksConsumed := by
  rw [commitConsumed_val]; split <;> rfl

theorem commitTime_val_ksConsumed (cfg : Config) (X : Externs) (s : KState) :
    (commitTime cfg X s).val.ksConsumed = 0 := rfl

theorem commitTime_val_refills (cfg : Config) (X : Externs) (s : KState) :
    (commitTime cfg X s).val.ksCurSC.refills =
      if s.ksConsumed > 0 then (commitRefills X s).val.refills else s.ksCurSC.refills := by
  rw [commitTime_val]
  show (commitDomain cfg (commitConsumed X s).val).val.ksCurSC.refills = _
  rw [commitDomain_val_ksCurSC, commitConsumed_val]
  split <;> rfl

/-- Refills of a round-robin context after `commitTime` charged a positive
amount. -/
theorem commitTime_refills_rr (cfg : Config) (X : Externs) (s : KState) (h t : refill_t)
    (hrr : isRoundRobin s.ksCurSC = true) (hrf : s.ksCurSC.refills = [h, t])
    (hh : h.rAmount < 2 ^ 64) (hc : s.ksConsumed ≤ h.rAmount) (hpos : 0 < s.ksConsumed) :
    (commitTime cfg X s).val.ksCurSC.refills =
      [⟨h.rAmount - s.ksConsumed, h.rTime⟩, ⟨ticksAdd t.rAmount s.ksConsumed, t.rTime⟩] := by
  rw [commitTime_val_refills, if_pos hpos, commitRefills_val_rr X s h t hrr hrf,
    ticksSub_eq hc hh]

theorem refills_eq_pair {sc : sched_context_t} (hsz : refill_size sc = MIN_REFILLS) :
    ∃ h t, sc.refills = [h, t] := by
  unfold refill_size MIN_REFILLS at hsz
  exact List.length_eq_two.1 hsz

theorem commitTime_val_scBudget (cfg : Config) (X : Externs) (s : KState)
    (hrr : isRoundRobin s.ksCurSC = true) :
    (commitTime cfg X s).val.ksCurSC.scBudget = s.ksCurSC.scBudget := by
  rw [commitTime_val]
  show (commitDomain cfg (commitConsumed X s).val).val.ksCurSC.scBudget = _
  rw [commitDomain_val_ksCurSC, commitConsumed_val]
  split
  · unfold commitRefills
    simp [hrr, setTailAmount, setHeadAmount]
  · rfl

/-- C5: time conservation for round-robin contexts. If the current context is
round-robin with exactly `MIN_REFILLS` = 2 refills whose amounts sum to its
budget (a tick count) and the head refill covers the consumed counter, then
after `commitTime` the context still has two refills, the head lost exactly
the consumed time and the tail gained it (no wrap-around), the sum of the
amounts is unchanged and still the budget, and the consumed counter is 0. -/
theorem commitTime_rr_conserves (cfg : Config) (X : Externs) (s : KState)
    (hrr : isRoundRobin s.ksCurSC = true) (hsz : refill_size s.ksCurSC = MIN_REFILLS)
    (hsum : refillSum s.ksCurSC = s.ksCurSC.scBudget) (hbud : s.ksCurSC.scBudget < 2 ^ 64)
    (hc : s.ksConsumed ≤ (REFILL_HEAD s.ksCurSC).rAmount) :
    refill_size (commitTime cfg X s).val.ksCurSC = MIN_REFILLS ∧
      (REFILL_HEAD (commitTime cfg X s).val.ksCurSC).rAmount + s.ksConsumed =
        (REFILL_HEAD s.ksCurSC).rAmount ∧
      (REFILL_TAIL (commitTime cfg X s).val.ksCurSC).rAmount =
        (REFILL_TAIL s.ksCurSC).rAmount + s.ksConsumed ∧
      refillSum (commitTime cfg X s).val.ksCurSC = refillSum s.ksCurSC ∧
      refillSum (commitTime cfg X s).val.ksCurSC =
        (commitTime cfg X s).val.ksCurSC.scBudget ∧
      (commitTime cfg X s).val.ksConsumed = 0 := by
  obtain ⟨h, t, hrf⟩ := refills_eq_pair hsz
  have hsum' : h.rAmount + t.rAmount = s.ksCurSC.scBudget := by
    rw [← hsum]; simp [refillSum, hrf]
  have hhead : (REFILL_HEAD s.ksCurSC).rAmount = h.rAmount := by simp [REFILL_HEAD, hrf]
  have htail : (REFILL_TAIL s.ksCurSC).rAmount = t.rAmount := by simp [REFILL_TAIL, hrf]
  rw [hhead] at hc
  rw [hhead, htail, commitTime_val_scBudget cfg X s hrr]
  rcases Nat.eq_zero_or_pos s.ksConsumed with h0 | hpos
  · have hrf' : (commitTime cfg X s).val.ksCurSC.refills = [h, t] := by
      rw [commitTime_val_refills, h0]; simpa using hrf
    simp [refill_size, REFILL_HEAD, REFILL_TAIL, refillSum, hrf', hrf, h0, MIN_REFILLS,
      commitTime_val_ksConsumed]
    omega
  · have hrf' := commitTime_refills_rr cfg X s h t hrr hrf (by omega) hc hpos
    rw [ticksAdd_eq (by omega)] at hrf'
    simp [refill_size, REFILL_HEAD, REFILL_TAIL, refillSum, hrf', hrf, MIN_REFILLS,
      commitTime_val_ksConsumed]
    omega

theorem commitTime_rr_conserves_witness :
    isRoundRobin sConsumed300.ksCurSC = true ∧
      refill_size (commitTime cfg1 extSample sConsumed300).val.ksCurSC = MIN_REFILLS ∧
      refillSum (commitTime cfg1 extSample sConsumed300).val.ksCurSC = 1000 ∧
      (commitTime cfg1 extSample sConsumed300).val.ksConsumed = 0 :=
  ⟨by decide,
    (commitTime_rr_conserves cfg1 extSample sConsumed300 (by decide) (by decide) (by decide)
      (by decide) (by decide)).1,
    by decide, by decide⟩

/-- C6: if the current context is round-robin (two refills) and its head refill
amount `h` covers the consumed counter `c > 0`, then `commitTime` sets the
head amount to `h - c`, the tail amount to its old value plus `c` (on
`ticks_t`; exactly `t + c` when that is a tick count, as it is when the
refills sum to the budget), the consumed counter to 0, and leaves both refill
timestamps unchanged. -/
theorem commitTime_rr_head_tail (cfg : Config) (X : Externs) (s : KState)
    (hrr : isRoundRobin s.ksCurSC = true) (hsz : refill_size s.ksCurSC = MIN_REFILLS)
    (hh : (REFILL_HEAD s.ksCurSC).rAmount < 2 ^ 64)
    (hc : s.ksConsumed ≤ (REFILL_HEAD s.ksCurSC).rAmount) (hpos : 0 < s.ksConsumed) :
    (REFILL_HEAD (commitTime cfg X s).val.ksCurSC).rAmount =
        (REFILL_HEAD s.ksCurSC).rAmount - s.ksConsumed ∧
      (REFILL_TAIL (commitTime cfg X s).val.ksCurSC).rAmount =
        ((REFILL_TAIL s.ksCurSC).rAmount + s.ksConsumed) % 2 ^ 64 ∧
      ((REFILL_TAIL s.ksCurSC).rAmount + s.ksConsumed < 2 ^ 64 →
        (REFILL_TAIL (commitTime cfg X s).val.ksCurSC).rAmount =
          (REFILL_TAIL s.ksCurSC).rAmount + s.ksConsumed) ∧
      (commitTime cfg X s).val.ksConsumed = 0 ∧
      (REFILL_HEAD (commitTime cfg X s).val.ksCurSC).rTime = (REFILL_HEAD s.ksCurSC).rTime ∧
      (REFILL_TAIL (commitTime cfg X s).val.ksCurSC).rTime = (REFILL_TAIL s.ksCurSC).rTime := by
  obtain ⟨h, t, hrf⟩ := refills_eq_pair hsz
  have hhead : REFILL_HEAD s.ksCurSC = h := by simp [REFILL_HEAD, hrf]
  have htail : REFILL_TAIL s.ksCurSC = t := by simp [REFILL_TAIL, hrf]
  rw [hhead] at hh hc
  have hrf' := commitTime_refills_rr cfg X s h t hrr hrf hh hc hpos
  rw [hhead, htail]
  refine ⟨by simp [REFILL_HEAD, hrf'], by simp [REFILL_TAIL, hrf', ticksAdd], ?_, rfl,
    by simp [REFILL_HEAD, hrf'], by simp [REFILL_TAIL, hrf']⟩
  intro hlt
  simp [REFILL_TAIL, hrf', ticksAdd_eq hlt]

theorem commitTime_rr_head_tail_witness :
    isRoundRobin sConsumed300.ksCurSC = true ∧ sConsumed300.ksConsumed = 300 ∧
      (REFILL_HEAD sConsumed300.ksCurSC).rAmount = 1000 ∧
      (REFILL_TAIL sConsumed300.ksCurSC).rAmount = 0 ∧
      (REFILL_HEAD (commitTime cfg1 extSample sConsumed300).val.ksCurSC).rAmount = 1000 - 300 ∧
      (REFILL_TAIL (commitTime cfg1 extSample sConsumed300).val.ksCurSC).rAmount = 300 ∧
      (commitTime cfg1 extSample sConsumed300).val.ksConsumed = 0 :=
  ⟨by decide, by decide, by decide, by decide,
    (commitTime_rr_head_tail cfg1 extSample sConsumed300 (by decide) (by decide) (by decide)
      (by decide) (by decide)).1,
    by decide, by decide⟩


/-! ## Timestamps -/

theorem updateTimestamp_ksConsumed (cfg : Config) (now : Nat) (inc : Bool) (s : KState)
    (hpre : s.ksConsumed = 0) :
    (updateTimestamp cfg now inc s).ksConsumed = ticksSub now s.ksCurTime := by
  unfold updateTimestamp
  have hlt := ticksSub_lt now s.ksCurTime
  split
  · simp only [hpre, ticksAdd]
    omega
  · rfl

theorem updateTimestamp_ksCurTime (cfg : Config) (now : Nat) (inc : Bool) (s : KState) :
    (updateTimestamp cfg now inc s).ksCurTime = now := by
  unfold updateTimestamp
  split <;> rfl

theorem updateTimestamp_eq (cfg : Config) (now : Nat) (inc : Bool) (s : KState)
    (hpre : s.ksConsumed = 0) :
    updateTimestamp cfg now inc s =
      { s with ksCurTime := now, ksConsumed := ticksSub now s.ksCurTime } := by
  have h := updateTimestamp_ksConsumed cfg now inc s hpre
  unfold updateTimestamp at h ⊢
  split
  · rw [if_pos (by assumption)] at h
    simp only at h
    simp only [h]
  · rfl

/-- C7: rollback inverse. From a state with consumed counter 0 whose timestamp
is a tick count, `updateTimestamp` (any clock reading, either flag, either
build) followed by `rollbackTime` restores the timestamp, leaves the consumed
counter 0 and in fact gives back the whole state; the assertion of
`rollbackTime` holds when no reprogram is pending. -/
theorem rollbackTime_updateTimestamp (cfg : Config) (now : Nat) (inc : Bool) (s : KState)
    (hpre : s.ksConsumed = 0) (hprev : s.ksCurTime < 2 ^ 64) :
    (rollbackTime (updateTimestamp cfg now inc s)).val.ksCurTime = s.ksCurTime ∧
      (rollbackTime (updateTimestamp cfg now inc s)).val.ksConsumed = 0 ∧
      (rollbackTime (updateTimestamp cfg now inc s)).val = s ∧
      (s.ksReprogram = false → (rollbackTime (updateTimestamp cfg now inc s)).ok = true) := by
  rw [updateTimestamp_eq cfg now inc s hpre]
  have hback : ticksSub now (ticksSub now s.ksCurTime) = s.ksCurTime :=
    ticksSub_ticksSub now hprev
  refine ⟨hback, rfl, ?_, ?_⟩
  · cases s
    simp only [rollbackTime, Checked.bind_val, Checked.pure_val] at hback hpre ⊢
    simp only [hback, hpre]
  · intro hre
    simp [rollbackTime, hre]

theorem rollbackTime_updateTimestamp_witness :
    sIdle.ksConsumed = 0 ∧ sIdle.ksCurTime = 5000 ∧
      (updateTimestamp cfg1 5300 false sIdle).ksConsumed = 300 ∧
      (rollbackTime (updateTimestamp cfg1 5300 false sIdle)).val.ksCurTime = sIdle.ksCurTime ∧
      (rollbackTime (updateTimestamp cfg1 5300 false sIdle)).val.ksConsumed = 0 :=
  ⟨by decide, by decide, by decide,
    (rollbackTime_updateTimestamp cfg1 5300 false sIdle (by decide) (by decide)).1,
    (rollbackTime_updateTimestamp cfg1 5300 false sIdle (by decide) (by decide)).2.1⟩

/-- C8: `isCurDomainExpired` is true iff more than one domain is configured and
`ksDomainTime` is less than the consumed counter plus `MIN_BUDGET` (a
`ticks_t` sum, which is the plain sum whenever that is a tick count); with a
single domain it is always false. -/
theorem isCurDomainExpired_iff (cfg : Config) (s : KState) :
    (isCurDomainExpired cfg s = true ↔
        cfg.CONFIG_NUM_DOMAINS > 1 ∧
          s.ksDomainTime < (s.ksConsumed + cfg.MIN_BUDGET) % 2 ^ 64) ∧
      (cfg.CONFIG_NUM_DOMAINS ≤ 1 → isCurDomainExpired cfg s = false) ∧
      (s.ksConsumed + cfg.MIN_BUDGET < 2 ^ 64 →
        (isCurDomainExpired cfg s = true ↔
          cfg.CONFIG_NUM_DOMAINS > 1 ∧ s.ksDomainTime < s.ksConsumed + cfg.MIN_BUDGET)) := by
  refine ⟨by simp [isCurDomainExpired, ticksAdd], ?_, ?_⟩
  · intro h1
    have : ¬ cfg.CONFIG_NUM_DOMAINS > 1 := by omega
    simp [isCurDomainExpired, this]
  · intro hlt
    simp [isCurDomainExpired, ticksAdd_eq hlt]

theorem isCurDomainExpired_iff_witness :
    cfg2.CONFIG_NUM_DOMAINS = 2 ∧ sDomain100.ksDomainTime = 100 ∧ sDomain100.ksConsumed = 95 ∧
      cfg2.MIN_BUDGET = 10 ∧ isCurDomainExpired cfg2 sDomain100 = true ∧
      isCurDomainExpired cfg1 sDomain100 = false :=
  ⟨by decide, by decide, by decide, by decide,
    ((isCurDomainExpired_iff cfg2 sDomain100).2.2 (by decide)).2 ⟨by decide, by decide⟩,
    (isCurDomainExpired_iff cfg1 sDomain100).2.1 (by decide)⟩

/-- C9 (as stated) fails: in the standard case the consumed counter is
overwritten, not added to. With 7 ticks in the counter, previous timestamp
5000 and clock reading 5050 the counter becomes 50, not 57. -/
theorem updateTimestamp_accumulate_counterexample :
    (updateTimestamp cfg1 5050 true sConsumed7).ksConsumed = 50 ∧
      sConsumed7.ksConsumed + (5050 - sConsumed7.ksCurTime) = 57 ∧
      (updateTimestamp cfg1 5050 true sConsumed7).ksConsumed ≠
        sConsumed7.ksConsumed + (5050 - sConsumed7.ksCurTime) := by
  decide

/-- C9 (amended): `updateTimestamp` sets the timestamp to the clock reading; in
a debug or printing build with `incrementConsumedTime` set it adds the elapsed
time to the consumed counter, and otherwise (the standard case) it sets the
consumed counter to the elapsed time. -/
theorem updateTimestamp_effect (cfg : Config) (now : Nat) (inc : Bool) (s : KState) :
    (updateTimestamp cfg now inc s).ksCurTime = now ∧
      (((cfg.CONFIG_DEBUG_BUILD || cfg.CONFIG_PRINTING) && inc) = true →
        (updateTimestamp cfg now inc s).ksConsumed =
          (s.ksConsumed + elapsedSpec now s.ksCurTime) % 2 ^ 64) ∧
      (((cfg.CONFIG_DEBUG_BUILD || cfg.CONFIG_PRINTING) && inc) = false →
        (updateTimestamp cfg now inc s).ksConsumed = elapsedSpec now s.ksCurTime) := by
  refine ⟨updateTimestamp_ksCurTime cfg now inc s, ?_, ?_⟩
  · intro h
    unfold updateTimestamp
    rw [if_pos h, ← ticksSub_eq_elapsedSpec]
    rfl
  · intro h
    unfold updateTimestamp
    rw [if_neg (by simp [h]), ← ticksSub_eq_elapsedSpec]

theorem updateTimestamp_effect_witness :
    (updateTimestamp cfg1 5050 true sConsumed7).ksCurTime = 5050 ∧
      (updateTimestamp cfg1 5050 true sConsumed7).ksConsumed = elapsedSpec 5050 5000 ∧
      (updateTimestamp { cfg1 with CONFIG_DEBUG_BUILD := true } 5050 true sConsumed7).ksConsumed =
        57 :=
  ⟨(updateTimestamp_effect cfg1 5050 true sConsumed7).1,
    (updateTimestamp_effect cfg1 5050 true sConsumed7).2.2 (by decide), by decide⟩

/-- C10: under the documented precondition `ksConsumed == 0`, for every clock
reading, either value of `incrementConsumedTime` and either build
configuration, `updateTimestamp` agrees with its specification: `ksCurTime`
becomes the clock reading and `ksConsumed` the difference between the reading
and the previous `ksCurTime` modulo `2 ^ 64`. -/
theorem updateTimestamp_refines (cfg : Config) (now : Nat) (inc : Bool) (s : KState)
    (hpre : s.ksConsumed = 0) :
    updateTimestamp cfg now inc s = updateTimestampSpec now s ∧
      (updateTimestamp cfg now inc s).ksCurTime = now ∧
      ((updateTimestamp cfg now inc s).ksConsumed : Int) =
        ((now : Int) - (s.ksCurTime : Int)) % 2 ^ 64 := by
  refine ⟨?_, updateTimestamp_ksCurTime cfg now inc s, ?_⟩
  · rw [updateTimestamp_eq cfg now inc s hpre, ticksSub_eq_elapsedSpec]
    rfl
  · rw [updateTimestamp_ksConsumed cfg now inc s hpre]
    unfold ticksSub toTicks
    omega

theorem updateTimestamp_refines_witness :
    sIdle.ksConsumed = 0 ∧
      (updateTimestamp { cfg1 with CONFIG_PRINTING := true } 5300 true sIdle).ksCurTime = 5300 ∧
      (updateTimestamp { cfg1 with CONFIG_PRINTING := true } 5300 true sIdle).ksConsumed = 300 ∧
      (updateTimestamp cfg1 5300 true sIdle).ksConsumed = 300 :=
  ⟨by decide,
    (updateTimestamp_refines { cfg1 with CONFIG_PRINTING := true } 5300 true sIdle
      (by decide)).2.1,
    by decide, by decide⟩


/-! ## Runnable threads and the restarting budget check -/

/-- C11: for every thread whose state exists in the build
(`ThreadState_RunningVM` exists only under `CONFIG_VTX`), `isRunnable` is true
exactly when the state is Running, Restart or RunningVM, and false for
Inactive, BlockedOnSend, BlockedOnReceive, BlockedOnReply,
BlockedOnNotification and Idle. -/
theorem isRunnable_iff (cfg : Config) (thread : tcb_t)
    (hvalid : thread.tcbState = .ThreadState_RunningVM → cfg.CONFIG_VTX = true) :
    (isRunnable cfg thread = true ↔
        thread.tcbState = .ThreadState_Running ∨ thread.tcbState = .ThreadState_Restart ∨
          thread.tcbState = .ThreadState_RunningVM) ∧
      (thread.tcbState = .ThreadState_Inactive ∨ thread.tcbState = .ThreadState_BlockedOnSend ∨
          thread.tcbState = .ThreadState_BlockedOnReceive ∨
          thread.tcbState = .ThreadState_BlockedOnReply ∨
          thread.tcbState = .ThreadState_BlockedOnNotification ∨
          thread.tcbState = .ThreadState_IdleThreadState →
        isRunnable cfg thread = false) := by
  obtain ⟨st⟩ := thread
  cases st <;> simp [isRunnable] at hvalid ⊢
  exact hvalid

theorem isRunnable_iff_witness :
    (isRunnable cfg1 ⟨.ThreadState_Restart⟩ = true ↔
        (.ThreadState_Restart : thread_state_type) = .ThreadState_Running ∨
          (.ThreadState_Restart : thread_state_type) = .ThreadState_Restart ∨
          (.ThreadState_Restart : thread_state_type) = .ThreadState_RunningVM) ∧
      isRunnable cfg1 ⟨.ThreadState_BlockedOnReply⟩ = false ∧
      isRunnable { cfg1 with CONFIG_VTX := true } ⟨.ThreadState_RunningVM⟩ = true :=
  ⟨(isRunnable_iff cfg1 ⟨.ThreadState_Restart⟩ (by decide)).1, by decide, by decide⟩

theorem checkBudgetRestart_val (cfg : Config) (X : Externs) (s : KState) :
    (checkBudgetRestart cfg X s).val =
      if (!(checkBudget cfg X s).val.1 &&
          isRunnable cfg (checkBudget cfg X s).val.2.1.ksCurThread) = true then
        ((checkBudget cfg X s).val.1,
          X.setThreadState .ThreadState_Restart (checkBudget cfg X s).val.2.1,
          (checkBudget cfg X s).val.2.2 ++ [ExtCall.setThreadState .ThreadState_Restart])
      else (checkBudget cfg X s).val := by
  unfold checkBudgetRestart
  simp only [Checked.bind_val]
  split <;> rfl

theorem checkBudgetRestart_ok (cfg : Config) (X : Externs) (s : KState) :
    (checkBudgetRestart cfg X s).ok =
      (isRunnable cfg s.ksCurThread && (checkBudget cfg X s).ok) := by
  unfold checkBudgetRestart
  simp only [Checked.bind_ok, assert_ok]
  split <;> simp

theorem checkBudget_calls_no_setThreadState (cfg : Config) (X : Externs) (s : KState)
    (ts : thread_state_type) : ExtCall.setThreadState ts ∉ (checkBudget cfg X s).val.2.2 := by
  rw [checkBudget_val]
  split <;> [split; skip] <;> simp

/-- C12: in a state whose current thread is runnable, `checkBudgetRestart`
returns the value `checkBudget` returns and holds exactly when `checkBudget`'s
assertion holds. If that value is false and the thread is still runnable after
`checkBudget`, it calls `setThreadState(ksCurThread, ThreadState_Restart)` on
the state `checkBudget` left (so the thread state is Restart when
`setThreadState` stores the state it is given); otherwise it makes no further
call and leaves the state as `checkBudget` left it, which is the initial state
when the value is true. -/
theorem checkBudgetRestart_spec (cfg : Config) (X : Externs) (s : KState)
    (hrun : isRunnable cfg s.ksCurThread = true) :
    (checkBudgetRestart cfg X s).val.1 = (checkBudget cfg X s).val.1 ∧
      (checkBudgetRestart cfg X s).ok = (checkBudget cfg X s).ok ∧
      (ExtCall.setThreadState .ThreadState_Restart ∈ (checkBudgetRestart cfg X s).val.2.2 ↔
        (checkBudget cfg X s).val.1 = false ∧
          isRunnable cfg (checkBudget cfg X s).val.2.1.ksCurThread = true) ∧
      ((checkBudget cfg X s).val.1 = false ∧
          isRunnable cfg (checkBudget cfg X s).val.2.1.ksCurThread = true →
        (checkBudgetRestart cfg X s).val.2.1 =
            X.setThreadState .ThreadState_Restart (checkBudget cfg X s).val.2.1 ∧
          (checkBudgetRestart cfg X s).val.2.2 =
            (checkBudget cfg X s).val.2.2 ++ [ExtCall.setThreadState .ThreadState_Restart] ∧
          ((∀ ts s', (X.setThreadState ts s').ksCurThread.tcbState = ts) →
            (checkBudgetRestart cfg X s).val.2.1.ksCurThread.tcbState =
              .ThreadState_Restart)) ∧
      (¬ ((checkBudget cfg X s).val.1 = false ∧
          isRunnable cfg (checkBudget cfg X s).val.2.1.ksCurThread = true) →
        (checkBudgetRestart cfg X s).val = (checkBudget cfg X s).val) ∧
      ((checkBudget cfg X s).val.1 = true →
        (checkBudgetRestart cfg X s).val.2.1 = s ∧
          (checkBudgetRestart cfg X s).val.2.1.ksCurThread = s.ksCurThread) := by
  have hno := checkBudget_calls_no_setThreadState cfg X s .ThreadState_Restart
  rw [checkBudgetRestart_ok, hrun, checkBudgetRestart_val]
  by_cases hc : (checkBudget cfg X s).val.1 = false ∧
      isRunnable cfg (checkBudget cfg X s).val.2.1.ksCurThread = true
  · have hif : (!(checkBudget cfg X s).val.1 &&
        isRunnable cfg (checkBudget cfg X s).val.2.1.ksCurThread) = true := by
      simp [hc.1, hc.2]
    rw [if_pos hif]
    refine ⟨rfl, by simp, by simp [hc], ?_, fun h => absurd hc h, ?_⟩
    · intro _
      exact ⟨rfl, rfl, fun hset => hset _ _⟩
    · intro ht
      rw [hc.1] at ht
      exact absurd ht (by decide)
  · have hif : ¬ (!(checkBudget cfg X s).val.1 &&
        isRunnable cfg (checkBudget cfg X s).val.2.1.ksCurThread) = true := by
      intro h
      apply hc
      simpa using h
    rw [if_neg hif]
    refine ⟨rfl, by simp, ?_, fun h => absurd h hc, fun _ => rfl, ?_⟩
    · constructor
      · intro h; exact absurd h hno
      · intro h; exact absurd h hc
    · intro ht
      rw [checkBudget_val] at ht ⊢
      split at ht <;> [split at ht; skip] <;> simp at ht
      rename_i h1 h2
      simp [h1, h2]

theorem checkBudgetRestart_spec_witness :
    isRunnable cfg1 sPeriodicFull.ksCurThread = true ∧
      (checkBudgetRestart cfg1 extSample sPeriodicFull).val.1 =
        (checkBudget cfg1 extSample sPeriodicFull).val.1 ∧
      (checkBudgetRestart cfg1 extSample sPeriodicFull).val.1 = false ∧
      (checkBudgetRestart cfg1 extSample sPeriodicFull).val.2.1.ksCurThread.tcbState =
        .ThreadState_Restart ∧
      (checkBudgetRestart cfg1 extSample sIdle).val.1 = true ∧
      (checkBudgetRestart cfg1 extSample sIdle).val.2.1.ksCurThread.tcbState =
        .ThreadState_Running :=
  ⟨by decide, (checkBudgetRestart_spec cfg1 extSample sPeriodicFull (by decide)).1,
    by decide, by decide, by decide, by decide⟩


/-! ## Frame and safety properties of `commitTime` -/

theorem commitRefills_val_scConsumed (X : Externs) (s : KState) :
    (commitRefills X s).val.scConsumed = s.ksCurSC.scConsumed := by
  unfold commitRefills
  split <;> rfl

theorem commitConsumed_val_scConsumed (X : Externs) (s : KState) :
    (commitConsumed X s).val.ksCurSC.scConsumed = s.ksCurSC.scConsumed := by
  rw [commitConsumed_val]
  split
  · exact commitRefills_val_scConsumed X s
  · rfl

theorem commitConsumed_val_ksDomainTime (X : Externs) (s : KState) :
    (commitConsumed X s).val.ksDomainTime = s.ksDomainTime := by
  rw [commitConsumed_val]; split <;> rfl

theorem commitConsumed_val_ksCurTime (X : Externs) (s : KState) :
    (commitConsumed X s).val.ksCurTime = s.ksCurTime := by
  rw [commitConsumed_val]; split <;> rfl

theorem commitConsumed_val_ksReprogram (X : Externs) (s : KState) :
    (commitConsumed X s).val.ksReprogram = s.ksReprogram := by
  rw [commitConsumed_val]; split <;> rfl

theorem commitTime_val_scConsumed (cfg : Config) (X : Externs) (s : KState) :
    (commitTime cfg X s).val.ksCurSC.scConsumed =
      ticksAdd s.ksCurSC.scConsumed s.ksConsumed := by
  rw [commitTime_val]
  show ticksAdd (commitDomain cfg (commitConsumed X s).val).val.ksCurSC.scConsumed
    (commitDomain cfg (commitConsumed X s).val).val.ksConsumed = _
  rw [commitDomain_val_ksCurSC, commitDomain_val_ksConsumed, commitConsumed_val_scConsumed,
    commitConsumed_val_ksConsumed]

theorem commitTime_val_ksDomainTime (cfg : Config) (X : Externs) (s : KState) :
    (commitTime cfg X s).val.ksDomainTime =
      if cfg.CONFIG_NUM_DOMAINS > 1 then ticksSub s.ksDomainTime s.ksConsumed
      else s.ksDomainTime := by
  rw [commitTime_val]
  show (commitDomain cfg (commitConsumed X s).val).val.ksDomainTime = _
  rw [commitDomain_val]
  split
  · show ticksSub (commitConsumed X s).val.ksDomainTime (commitConsumed X s).val.ksConsumed = _
    rw [commitConsumed_val_ksDomainTime, commitConsumed_val_ksConsumed]
  · exact commitConsumed_val_ksDomainTime X s

theorem commitTime_val_ksCurTime (cfg : Config) (X : Externs) (s : KState) :
    (commitTime cfg X s).val.ksCurTime = s.ksCurTime := by
  rw [commitTime_val]
  show (commitDomain cfg (commitConsumed X s).val).val.ksCurTime = _
  rw [commitDomain_val]
  split <;> exact commitConsumed_val_ksCurTime X s

theorem commitTime_val_ksReprogram (cfg : Config) (X : Externs) (s : KState) :
    (commitTime cfg X s).val.ksReprogram = s.ksReprogram := by
  rw [commitTime_val]
  show (commitDomain cfg (commitConsumed X s).val).val.ksReprogram = _
  rw [commitDomain_val]
  split <;> exact commitConsumed_val_ksReprogram X s

theorem commitDomainAsserts_ok (cfg : Config) (s : KState) :
    (commitDomainAsserts cfg s).ok =
      (decide (s.ksDomainTime > s.ksConsumed) &&
        decide (ticksSub s.ksDomainTime s.ksConsumed ≥ cfg.MIN_BUDGET)) := by
  simp [commitDomainAsserts]

theorem commitDomain_ok (cfg : Config) (s : KState) :
    (commitDomain cfg s).ok =
      if cfg.CONFIG_NUM_DOMAINS > 1 then (commitDomainAsserts cfg s).ok else true := by
  unfold commitDomain
  split <;> simp

theorem commitTime_ok (cfg : Config) (X : Externs) (s : KState) :
    (commitTime cfg X s).ok =
      ((commitConsumed X s).ok && (commitDomain cfg (commitConsumed X s).val).ok) := by
  simp [commitTime]

/-- The domain assertions reached inside `commitTime` are those of the initial
state. -/
theorem commitDomainAsserts_commitConsumed (cfg : Config) (X : Externs) (s : KState) :
    (commitDomainAsserts cfg (commitConsumed X s).val).ok = (commitDomainAsserts cfg s).ok := by
  rw [commitDomainAsserts_ok, commitDomainAsserts_ok, commitConsumed_val_ksDomainTime,
    commitConsumed_val_ksConsumed]

/-- C13: for every state (round-robin or periodic) on which the assertions of
`commitTime` hold and whose domain window is a tick count, `commitTime` with
consumed counter `c` adds `c` to the cumulative `scConsumed` of the current
context (on `ticks_t`), sets the consumed counter to 0, leaves the timestamp
and the reprogram flag unchanged, and changes the domain window to
`ksDomainTime - c` (with `c < ksDomainTime`) when more than one domain is
configured and leaves it unchanged otherwise. -/
theorem commitTime_frame (cfg : Config) (X : Externs) (s : KState)
    (hok : (commitTime cfg X s).ok = true) (hdt : s.ksDomainTime < 2 ^ 64) :
    (commitTime cfg X s).val.ksCurSC.scConsumed =
        (s.ksCurSC.scConsumed + s.ksConsumed) % 2 ^ 64 ∧
      (commitTime cfg X s).val.ksConsumed = 0 ∧
      (commitTime cfg X s).val.ksCurTime = s.ksCurTime ∧
      (commitTime cfg X s).val.ksReprogram = s.ksReprogram ∧
      (cfg.CONFIG_NUM_DOMAINS > 1 →
        s.ksConsumed < s.ksDomainTime ∧
          (commitTime cfg X s).val.ksDomainTime = s.ksDomainTime - s.ksConsumed) ∧
      (cfg.CONFIG_NUM_DOMAINS ≤ 1 →
        (commitTime cfg X s).val.ksDomainTime = s.ksDomainTime) := by
  refine ⟨commitTime_val_scConsumed cfg X s, rfl, commitTime_val_ksCurTime cfg X s,
    commitTime_val_ksReprogram cfg X s, ?_, ?_⟩
  · intro hd
    rw [commitTime_ok, commitDomain_ok, if_pos hd, commitDomainAsserts_commitConsumed,
      commitDomainAsserts_ok] at hok
    simp only [Bool.and_eq_true, decide_eq_true_eq] at hok
    have hlt : s.ksConsumed < s.ksDomainTime := hok.2.1
    refine ⟨hlt, ?_⟩
    rw [commitTime_val_ksDomainTime, if_pos hd, ticksSub_eq (le_of_lt hlt) hdt]
  · intro hd
    rw [commitTime_val_ksDomainTime, if_neg (by omega)]

theorem commitTime_frame_witness :
    (commitTime cfg2 extSample sConsumed300).ok = true ∧
      sConsumed300.ksDomainTime = 100000 ∧ sConsumed300.ksConsumed = 300 ∧
      (commitTime cfg2 extSample sConsumed300).val.ksCurSC.scConsumed = 300 ∧
      (commitTime cfg2 extSample sConsumed300).val.ksConsumed = 0 ∧
      (commitTime cfg2 extSample sConsumed300).val.ksDomainTime = 99700 ∧
      (commitTime cfg1 extSample sConsumed300).val.ksDomainTime = 100000 ∧
      (commitTime cfg2 extSample sConsumed300).val.ksCurTime = sConsumed300.ksCurTime :=
  ⟨by decide, by decide, by decide, by decide, by decide, by decide, by decide,
    (commitTime_frame cfg2 extSample sConsumed300 (by decide) (by decide)).2.2.1⟩

/-- C16: with more than one domain, `MIN_BUDGET > 0`, the domain not expired and
`consumed + MIN_BUDGET` a tick count, both domain assertions of `commitTime`
hold (`ksDomainTime > consumed` and `ksDomainTime - consumed >= MIN_BUDGET`,
also as reached inside `commitTime`), the debit does not wrap around, and the
domain window after `commitTime` is `ksDomainTime - consumed`, still at least
`MIN_BUDGET`. -/
theorem commitTime_domain_safe (cfg : Config) (X : Externs) (s : KState)
    (hd : cfg.CONFIG_NUM_DOMAINS > 1) (hmin : cfg.MIN_BUDGET > 0)
    (hexp : isCurDomainExpired cfg s = false)
    (hsum : s.ksConsumed + cfg.MIN_BUDGET < 2 ^ 64) (hdt : s.ksDomainTime < 2 ^ 64) :
    (commitDomainAsserts cfg s).ok = true ∧
      (commitDomain cfg (commitConsumed X s).val).ok = true ∧
      s.ksDomainTime > s.ksConsumed ∧
      s.ksDomainTime - s.ksConsumed ≥ cfg.MIN_BUDGET ∧
      (commitTime cfg X s).val.ksDomainTime = s.ksDomainTime - s.ksConsumed ∧
      (commitTime cfg X s).val.ksDomainTime ≥ cfg.MIN_BUDGET := by
  have hge : s.ksConsumed + cfg.MIN_BUDGET ≤ s.ksDomainTime := by
    unfold isCurDomainExpired at hexp
    rw [ticksAdd_eq hsum] at hexp
    simp only [hd, decide_True, Bool.true_and, decide_eq_false_iff_not, not_lt] at hexp
    exact hexp
  have hsub : ticksSub s.ksDomainTime s.ksConsumed = s.ksDomainTime - s.ksConsumed :=
    ticksSub_eq (by omega) hdt
  have hA : (commitDomainAsserts cfg s).ok = true := by
    rw [commitDomainAsserts_ok, hsub]
    simp only [Bool.and_eq_true, decide_eq_true_eq]
    omega
  refine ⟨hA, ?_, by omega, by omega, ?_, ?_⟩
  · rw [commitDomain_ok, if_pos hd, commitDomainAsserts_commitConsumed]
    exact hA
  · rw [commitTime_val_ksDomainTime, if_pos hd, hsub]
  · rw [commitTime_val_ksDomainTime, if_pos hd, hsub]
    omega

theorem commitTime_domain_safe_witness :
    isCurDomainExpired cfg2 sConsumed300 = false ∧
      (commitDomainAsserts cfg2 sConsumed300).ok = true ∧
      (commitTime cfg2 extSample sConsumed300).val.ksDomainTime = 99700 :=
  ⟨by decide,
    (commitTime_domain_safe cfg2 extSample sConsumed300 (by decide) (by decide) (by decide)
      (by decide) (by decide)).1,
    by decide⟩

/-- C18: on a state with consumed counter 0 (whose domain window and cumulative
`scConsumed` are tick counts) `commitTime` changes nothing; and on every state
a second `commitTime` yields the state the first one yielded, its assertions
holding whenever those of the first call held (the domain window being a tick
count). -/
theorem commitTime_idempotent (cfg : Config) (X : Externs) (s : KState) :
    (s.ksConsumed = 0 → s.ksDomainTime < 2 ^ 64 → s.ksCurSC.scConsumed < 2 ^ 64 →
        (commitTime cfg X s).val = s) ∧
      (commitTime cfg X (commitTime cfg X s).val).val = (commitTime cfg X s).val ∧
      ((commitTime cfg X s).ok = true → s.ksDomainTime < 2 ^ 64 →
        (commitTime cfg X (commitTime cfg X s).val).ok = true) := by
  have hzero : ∀ t : KState, t.ksConsumed = 0 → t.ksDomainTime < 2 ^ 64 →
      t.ksCurSC.scConsumed < 2 ^ 64 → (commitTime cfg X t).val = t := by
    intro t h0 hdt hsc
    rw [commitTime_val, commitConsumed_val, if_neg (by omega), commitDomain_val]
    obtain ⟨l1, l2, q, th, sc, ct, c, rp, dt, cpu⟩ := t
    obtain ⟨per, bud, con, rmax, rf⟩ := sc
    simp only at h0 hdt hsc
    subst h0
    split <;> simp [ticksSub_zero hdt, ticksAdd_eq (a := con) (b := 0) (by omega)]
  refine ⟨hzero s, ?_, ?_⟩
  · by_cases hd : cfg.CONFIG_NUM_DOMAINS > 1
    · apply hzero _ rfl
      · rw [commitTime_val_ksDomainTime, if_pos hd]
        exact ticksSub_lt _ _
      · rw [commitTime_val_scConsumed]
        unfold ticksAdd
        omega
    · have h1 : (commitTime cfg X s).val.ksConsumed = 0 := rfl
      rw [commitTime_val cfg X (commitTime cfg X s).val, commitConsumed_val,
        if_neg (by omega), commitDomain_val, if_neg hd]
      have hsc : (commitTime cfg X s).val.ksCurSC.scConsumed < 2 ^ 64 := by
        rw [commitTime_val_scConsumed]
        unfold ticksAdd
        omega
      generalize (commitTime cfg X s).val = t at h1 hsc
      obtain ⟨l1, l2, q, th, sc, ct, c, rp, dt, cpu⟩ := t
      obtain ⟨per, bud, con, rmax, rf⟩ := sc
      simp only at h1 hsc
      subst h1
      simp [ticksAdd_eq (a := con) (b := 0) (by omega)]
  · intro hok hdt
    have h1 : (commitTime cfg X s).val.ksConsumed = 0 := rfl
    rw [commitTime_ok] at hok ⊢
    simp only [Bool.and_eq_true] at hok ⊢
    constructor
    · unfold commitConsumed
      rw [if_neg (by omega)]
      rfl
    · rw [commitDomain_ok] at hok ⊢
      split
      · rename_i hd
        rw [if_pos hd, commitDomainAsserts_commitConsumed, commitDomainAsserts_ok] at hok
        rw [commitDomainAsserts_commitConsumed, commitDomainAsserts_ok, h1,
          commitTime_val_ksDomainTime, if_pos hd]
        simp only [Bool.and_eq_true, decide_eq_true_eq] at hok ⊢
        have hlt := ticksSub_lt s.ksDomainTime s.ksConsumed
        rw [ticksSub_zero hlt]
        obtain ⟨_, h2, h3⟩ := hok
        refine ⟨?_, h3⟩
        rw [ticksSub_eq (le_of_lt h2) hdt]
        omega
      · rfl

theorem commitTime_idempotent_witness :
    sIdle.ksConsumed = 0 ∧ (commitTime cfg2 extSample sIdle).val.ksDomainTime = 100000 ∧
      (commitTime cfg2 extSample sIdle).val.ksCurSC = sIdle.ksCurSC ∧
      (commitTime cfg2 extSample (commitTime cfg2 extSample sConsumed300).val).val.ksCurSC =
        (commitTime cfg2 extSample sConsumed300).val.ksCurSC ∧
      (commitTime cfg2 extSample (commitTime cfg2 extSample sConsumed300).val).ok = true :=
  ⟨by decide, by decide,
    congrArg KState.ksCurSC
      ((commitTime_idempotent cfg2 extSample sIdle).1 (by decide) (by decide) (by decide)),
    by decide,
    (commitTime_idempotent cfg2 extSample sConsumed300).2.2 (by decide) (by decide)⟩


/-! ## The domain-expired path and the frame of the budget check -/

/-- C14: when the capacity test passes but the domain is expired, `checkBudget`
returns false, sets `ksReprogram` and makes exactly one external call,
`rescheduleRequired`, on the state that differs from the initial one only in
`ksReprogram = true`; `chargeBudget` is not invoked and the scheduling context
handed on is untouched. If `rescheduleRequired` keeps the reprogram flag and
the current context, the final state has the flag set and the refills
unchanged. -/
theorem checkBudget_domain_expired (cfg : Config) (X : Externs) (s : KState)
    (hcap : X.refill_capacity s.ksCurSC s.ksConsumed ≥ cfg.MIN_BUDGET)
    (hrf : isRoundRobin s.ksCurSC = true ∨ refill_full s.ksCurSC = false)
    (hexp : isCurDomainExpired cfg s = true) :
    (checkBudget cfg X s).val.1 = false ∧
      (checkBudget cfg X s).val.2.2 = [ExtCall.rescheduleRequired] ∧
      (∀ a b c d e, ExtCall.chargeBudget a b c d e ∉ (checkBudget cfg X s).val.2.2) ∧
      (checkBudget cfg X s).val.2.1 = X.rescheduleRequired { s with ksReprogram := true } ∧
      ({ s with ksReprogram := true } : KState).ksCurSC = s.ksCurSC ∧
      ((∀ t, (X.rescheduleRequired t).ksReprogram = t.ksReprogram ∧
          (X.rescheduleRequired t).ksCurSC = t.ksCurSC) →
        (checkBudget cfg X s).val.2.1.ksReprogram = true ∧
          (checkBudget cfg X s).val.2.1.ksCurSC.refills = s.ksCurSC.refills) := by
  have hc : capacityTest cfg s (X.refill_capacity s.ksCurSC s.ksConsumed) = true :=
    (capacityTest_iff cfg s _).2 ⟨hcap, hrf⟩
  rw [checkBudget_val, if_pos hc, if_pos hexp]
  refine ⟨rfl, rfl, by simp, rfl, rfl, ?_⟩
  intro hX
  obtain ⟨h1, h2⟩ := hX { s with ksReprogram := true }
  exact ⟨h1, by rw [h2]⟩

theorem checkBudget_domain_expired_witness :
    extSample.refill_capacity sDomainShort.ksCurSC sDomainShort.ksConsumed = 1000 ∧
      isCurDomainExpired cfg2 sDomainShort = true ∧
      (checkBudget cfg2 extSample sDomainShort).val.1 = false ∧
      (checkBudget cfg2 extSample sDomainShort).val.2.1.ksReprogram = true :=
  ⟨by decide, by decide,
    (checkBudget_domain_expired cfg2 extSample sDomainShort (by decide) (Or.inl (by decide))
      (by decide)).1,
    by decide⟩

/-- C19: whenever `checkBudget` returns true, the state after the call is the
state before it (so the refills, the consumed counter, the timestamp, the
reprogram flag and the domain window are unchanged) and no external call is
made: neither `chargeBudget` nor `rescheduleRequired`. -/
theorem checkBudget_true_frame (cfg : Config) (X : Externs) (s : KState)
    (ht : (checkBudget cfg X s).val.1 = true) :
    (checkBudget cfg X s).val.2.1 = s ∧ (checkBudget cfg X s).val.2.2 = [] ∧
      (checkBudget cfg X s).val.2.1.ksCurSC.refills = s.ksCurSC.refills ∧
      (checkBudget cfg X s).val.2.1.ksConsumed = s.ksConsumed ∧
      (checkBudget cfg X s).val.2.1.ksCurTime = s.ksCurTime ∧
      (checkBudget cfg X s).val.2.1.ksReprogram = s.ksReprogram ∧
      (checkBudget cfg X s).val.2.1.ksDomainTime = s.ksDomainTime := by
  have hs : (checkBudget cfg X s).val.2.1 = s ∧ (checkBudget cfg X s).val.2.2 = [] := by
    rw [checkBudget_val] at ht ⊢
    split at ht <;> [split at ht; skip] <;> simp at ht
    rename_i h1 h2
    simp [h1, h2]
  refine ⟨hs.1, hs.2, ?_, ?_, ?_, ?_, ?_⟩ <;> rw [hs.1]

theorem checkBudget_true_frame_witness :
    (checkBudget cfg1 extSample sIdle).val.1 = true ∧
      (checkBudget cfg1 extSample sIdle).val.2.2 = [] ∧
      (checkBudget cfg1 extSample sIdle).val.2.1.ksCurSC = sIdle.ksCurSC :=
  ⟨by decide, (checkBudget_true_frame cfg1 extSample sIdle (by decide)).2.1, by decide⟩

/-! ## The arithmetic and the assertions of `getHighestPrio` -/

/-- C15: when the level-1 word of a domain is a machine word with most
significant set bit `bucket` and the level-2 word the code selects (index
`L2_BITMAP_SIZE - 1 - bucket` in word arithmetic, which is that difference when
`bucket < L2_BITMAP_SIZE`) is a machine word with most significant set bit
`offset`, `getHighestPrio` returns `(bucket << wordRadix) | offset`, which
equals `bucket * wordBits + offset` because `offset < wordBits`; hence
`prio_to_l1index` of the result is `bucket` and the result modulo `wordBits`
is `offset`. -/
theorem getHighestPrio_bucket_offset (cfg : Config) (s : KState) (d bucket offset : Nat)
    (h1 : s.ksReadyQueuesL1Bitmap d < 2 ^ wordBits cfg)
    (hb : IsMsb (s.ksReadyQueuesL1Bitmap d) bucket)
    (h2 : s.ksReadyQueuesL2Bitmap d (wordSub cfg (wordSub cfg cfg.L2_BITMAP_SIZE 1) bucket) <
      2 ^ wordBits cfg)
    (ho : IsMsb (s.ksReadyQueuesL2Bitmap d
      (wordSub cfg (wordSub cfg cfg.L2_BITMAP_SIZE 1) bucket)) offset) :
    (getHighestPrio cfg s d).val = bucket * wordBits cfg + offset ∧
      (getHighestPrio cfg s d).val = ((bucket <<< cfg.wordRadix) ||| offset) ∧
      offset < wordBits cfg ∧
      prio_to_l1index cfg (getHighestPrio cfg s d).val = bucket ∧
      (getHighestPrio cfg s d).val % wordBits cfg = offset ∧
      (cfg.L2_BITMAP_SIZE < 2 ^ wordBits cfg → bucket < cfg.L2_BITMAP_SIZE →
        wordSub cfg (wordSub cfg cfg.L2_BITMAP_SIZE 1) bucket =
          cfg.L2_BITMAP_SIZE - 1 - bucket) := by
  obtain ⟨hbW, hoW, hor, hsum⟩ := getHighestPrio_val_msb cfg s d bucket offset h1 hb h2 ho
  have hW := wordBits_pos cfg
  have hshift : l1index_to_prio cfg bucket = bucket <<< cfg.wordRadix := by
    unfold l1index_to_prio toWord
    apply Nat.mod_eq_of_lt
    rw [Nat.shiftLeft_eq]
    have : bucket * wordBits cfg < wordBits cfg * wordBits cfg :=
      Nat.mul_lt_mul_of_pos_right hbW hW
    have := wordBits_sq_le cfg
    have e : bucket * 2 ^ cfg.wordRadix = bucket * wordBits cfg := rfl
    omega
  refine ⟨hsum, by rw [hor, hshift], hoW, ?_, ?_, fun hL hk => invert_eq cfg hL hk⟩
  · rw [prio_to_l1index_eq, hsum, Nat.mul_comm, Nat.mul_add_div hW, Nat.div_eq_of_lt hoW,
      Nat.add_zero]
  · rw [hsum, Nat.mul_comm, Nat.mul_add_mod, Nat.mod_eq_of_lt hoW]

theorem isMsb_sPrio5and10_l1 : IsMsb (sPrio5and10.ksReadyQueuesL1Bitmap 0) 0 := by
  refine ⟨by decide, ?_⟩
  intro j hj
  by_contra hlt
  have h2 : (1 : Nat) < 2 ^ j := Nat.one_lt_two_pow (by omega)
  have := Nat.testBit_lt_two_pow h2
  have e : sPrio5and10.ksReadyQueuesL1Bitmap 0 = 1 := rfl
  rw [e, this] at hj
  exact Bool.false_ne_true hj

theorem isMsb_sPrio5and10_l2 : IsMsb (sPrio5and10.ksReadyQueuesL2Bitmap 0 3) 10 := by
  refine ⟨by decide, ?_⟩
  intro j hj
  by_contra hlt
  have h2 : (2 ^ 5 + 2 ^ 10 : Nat) < 2 ^ j :=
    lt_of_lt_of_le (by decide : (2 ^ 5 + 2 ^ 10 : Nat) < 2 ^ 11)
      (Nat.pow_le_pow_right (by decide) (by omega))
  have := Nat.testBit_lt_two_pow h2
  have e : sPrio5and10.ksReadyQueuesL2Bitmap 0 3 = 2 ^ 5 + 2 ^ 10 := rfl
  rw [e, this] at hj
  exact Bool.false_ne_true hj

theorem getHighestPrio_bucket_offset_witness :
    (getHighestPrio cfg1 sPrio5and10 0).val = 0 * wordBits cfg1 + 10 ∧
      prio_to_l1index cfg1 (getHighestPrio cfg1 sPrio5and10 0).val = 0 :=
  ⟨(getHighestPrio_bucket_offset cfg1 sPrio5and10 0 0 10 (by decide) isMsb_sPrio5and10_l1
      (by decide) isMsb_sPrio5and10_l2).1,
    (getHighestPrio_bucket_offset cfg1 sPrio5and10 0 0 10 (by decide) isMsb_sPrio5and10_l1
      (by decide) isMsb_sPrio5and10_l2).2.2.2.1⟩

/-- C17: if the level-1 word of domain `d` is a non-zero machine word with no
bit set at an index `>= L2_BITMAP_SIZE` and every set level-1 bit `b` has a
non-zero level-2 word at index `L2_BITMAP_SIZE - 1 - b`, then every assertion
`getHighestPrio(d)` reaches holds: the level-1 word is non-zero, the inverted
index is below `L2_BITMAP_SIZE` and the selected level-2 word is non-zero. -/
theorem getHighestPrio_asserts (cfg : Config) (s : KState) (d : Nat)
    (hL : cfg.L2_BITMAP_SIZE < 2 ^ wordBits cfg)
    (h1 : s.ksReadyQueuesL1Bitmap d < 2 ^ wordBits cfg)
    (h0 : s.ksReadyQueuesL1Bitmap d ≠ 0)
    (hhi : ∀ b, b < wordBits cfg → (s.ksReadyQueuesL1Bitmap d).testBit b = true →
      b < cfg.L2_BITMAP_SIZE)
    (hl2 : ∀ b, b < wordBits cfg → (s.ksReadyQueuesL1Bitmap d).testBit b = true →
      s.ksReadyQueuesL2Bitmap d (cfg.L2_BITMAP_SIZE - 1 - b) ≠ 0) :
    (getHighestPrio cfg s d).ok = true ∧
      (invert_l1index cfg (wordSub cfg (wordSub cfg (wordBits cfg) 1)
        (clzl cfg (s.ksReadyQueuesL1Bitmap d)))).ok = true ∧
      (invert_l1index cfg (wordSub cfg (wordSub cfg (wordBits cfg) 1)
        (clzl cfg (s.ksReadyQueuesL1Bitmap d)))).val < cfg.L2_BITMAP_SIZE ∧
      s.ksReadyQueuesL2Bitmap d
        (invert_l1index cfg (wordSub cfg (wordSub cfg (wordBits cfg) 1)
          (clzl cfg (s.ksReadyQueuesL1Bitmap d)))).val ≠ 0 := by
  obtain ⟨hkW, hkt, _⟩ := msb_spec cfg _ h0 h1
  have hkL := hhi _ hkW hkt
  have hne := hl2 _ hkW hkt
  have e := invert_eq cfg hL hkL
  have hval : (invert_l1index cfg (wordSub cfg (wordSub cfg (wordBits cfg) 1)
      (clzl cfg (s.ksReadyQueuesL1Bitmap d)))).val =
      cfg.L2_BITMAP_SIZE - 1 - wordSub cfg (wordSub cfg (wordBits cfg) 1)
        (clzl cfg (s.ksReadyQueuesL1Bitmap d)) := e
  have hlt : cfg.L2_BITMAP_SIZE - 1 - wordSub cfg (wordSub cfg (wordBits cfg) 1)
      (clzl cfg (s.ksReadyQueuesL1Bitmap d)) < cfg.L2_BITMAP_SIZE := by omega
  have hok : (invert_l1index cfg (wordSub cfg (wordSub cfg (wordBits cfg) 1)
      (clzl cfg (s.ksReadyQueuesL1Bitmap d)))).ok = true := by
    simp only [invert_l1index, Checked.bind_ok, assert_ok, Checked.pure_ok, Bool.and_true,
      decide_eq_true_eq]
    rw [e]; exact hlt
  refine ⟨?_, hok, by rw [hval]; exact hlt, by rw [hval]; exact hne⟩
  rw [getHighestPrio_ok, e]
  simp only [Bool.and_eq_true, bne_iff_ne, ne_eq, decide_eq_true_eq]
  exact ⟨h0, hlt, hne⟩

theorem getHighestPrio_asserts_witness :
    sPrio5and10.ksReadyQueuesL1Bitmap 0 ≠ 0 ∧ (getHighestPrio cfg1 sPrio5and10 0).ok = true ∧
      (getHighestPrio cfg1 sIdle 0).ok = false :=
  ⟨by decide,
    (getHighestPrio_asserts cfg1 sPrio5and10 0 (by decide) (by decide) (by decide) (by decide)
      (by decide)).1,
    by decide⟩

/-- C20: on valid inputs (`dom < CONFIG_NUM_DOMAINS`, `prio <
CONFIG_NUM_PRIORITIES`, the number of queues fitting a machine word)
`ready_queues_index` passes its assertion, is below `CONFIG_NUM_DOMAINS *
CONFIG_NUM_PRIORITIES`, and maps two valid pairs to the same index only if
they are equal. -/
theorem ready_queues_index_injective (cfg : Config) (dom prio dom' prio' : Nat)
    (hfit : cfg.CONFIG_NUM_DOMAINS * cfg.CONFIG_NUM_PRIORITIES ≤ 2 ^ wordBits cfg)
    (hd : dom < cfg.CONFIG_NUM_DOMAINS) (hp : prio < cfg.CONFIG_NUM_PRIORITIES)
    (hd' : dom' < cfg.CONFIG_NUM_DOMAINS) (hp' : prio' < cfg.CONFIG_NUM_PRIORITIES) :
    (ready_queues_index cfg dom prio).ok = true ∧
      (ready_queues_index cfg dom prio).val <
        cfg.CONFIG_NUM_DOMAINS * cfg.CONFIG_NUM_PRIORITIES ∧
      ((ready_queues_index cfg dom prio).val = (ready_queues_index cfg dom' prio').val →
        dom = dom' ∧ prio = prio') := by
  have hlt : ∀ a b, a < cfg.CONFIG_NUM_DOMAINS → b < cfg.CONFIG_NUM_PRIORITIES →
      a * cfg.CONFIG_NUM_PRIORITIES + b < cfg.CONFIG_NUM_DOMAINS * cfg.CONFIG_NUM_PRIORITIES := by
    intro a b ha hb
    have : (a + 1) * cfg.CONFIG_NUM_PRIORITIES ≤
        cfg.CONFIG_NUM_DOMAINS * cfg.CONFIG_NUM_PRIORITIES := Nat.mul_le_mul_right _ ha
    rw [Nat.add_mul] at this
    omega
  by_cases hn : cfg.CONFIG_NUM_DOMAINS > 1
  · have hv : ∀ a b, a < cfg.CONFIG_NUM_DOMAINS → b < cfg.CONFIG_NUM_PRIORITIES →
        (ready_queues_index cfg a b).val = a * cfg.CONFIG_NUM_PRIORITIES + b := by
      intro a b ha hb
      unfold ready_queues_index
      rw [if_pos hn]
      exact Nat.mod_eq_of_lt (lt_of_lt_of_le (hlt a b ha hb) hfit)
    refine ⟨by unfold ready_queues_index; rw [if_pos hn]; rfl, ?_, ?_⟩
    · rw [hv dom prio hd hp]; exact hlt dom prio hd hp
    · rw [hv dom prio hd hp, hv dom' prio' hd' hp']
      intro heq
      have hP : 0 < cfg.CONFIG_NUM_PRIORITIES := by omega
      have e1 : (dom * cfg.CONFIG_NUM_PRIORITIES + prio) / cfg.CONFIG_NUM_PRIORITIES = dom := by
        rw [Nat.mul_comm, Nat.mul_add_div hP, Nat.div_eq_of_lt hp, Nat.add_zero]
      have e2 : (dom' * cfg.CONFIG_NUM_PRIORITIES + prio') / cfg.CONFIG_NUM_PRIORITIES = dom' := by
        rw [Nat.mul_comm, Nat.mul_add_div hP, Nat.div_eq_of_lt hp', Nat.add_zero]
      have hdd : dom = dom' := by rw [← e1, ← e2, heq]
      subst hdd
      exact ⟨rfl, by omega⟩
  · have h0 : dom = 0 := by omega
    have h0' : dom' = 0 := by omega
    subst h0 h0'
    have hv : ∀ b, (ready_queues_index cfg 0 b).val = b := by
      intro b
      unfold ready_queues_index
      rw [if_neg hn]
      rfl
    refine ⟨by unfold ready_queues_index; rw [if_neg hn]; rfl, ?_, ?_⟩
    · rw [hv]
      have := hlt 0 prio hd hp
      omega
    · rw [hv, hv]
      intro heq
      exact ⟨rfl, heq⟩

theorem ready_queues_index_injective_witness :
    (ready_queues_index cfg2 1 5).ok = true ∧ (ready_queues_index cfg2 1 5).val = 261 ∧
      (ready_queues_index cfg2 0 5).val = 5 ∧
      (ready_queues_index cfg2 1 5).val < cfg2.CONFIG_NUM_DOMAINS * cfg2.CONFIG_NUM_PRIORITIES :=
  ⟨(ready_queues_index_injective cfg2 1 5 0 5 (by decide) (by decide) (by decide) (by decide)
      (by decide)).1,
    by decide, by decide,
    (ready_queues_index_injective cfg2 1 5 0 5 (by decide) (by decide) (by decide) (by decide)
      (by decide)).2.1⟩

end Thread
